import Mathlib

/-!
Verification of the bounty lifecycle engine of the ai-bounty-board server
(src/server.js).  The JavaScript handlers are shallowly embedded as pure
Lean functions over an explicit bounty document; asynchronous store reads
are modelled by passing the store view observed at each read, so that the
optimistic-claim race of `atomicClaim` is expressible.  JS numbers that the
code uses as integers (timestamps, USDC amounts in smallest units, counts)
are modelled as `Nat`/`Int`; all modelled quantities stay far below 2^53,
where IEEE-754 doubles are exact on integers.
-/

namespace BountyBoard

/-! ### JS string primitives used by the handlers -/

/-- Embeds `String.prototype.toLowerCase` restricted to basic latin, which is
exact for the hex wallet addresses and action keys the server lowercases.
Defined on the character list so that facts about it reduce to `List.map`. -/
def lc (s : String) : String := ⟨s.data.map Char.toLower⟩

/-- Embeds `a.includes(b)` on JS strings: `b` occurs contiguously in `a`. -/
def includes (s sub : String) : Bool :=
  s.data.tails.any fun t => sub.data.isPrefixOf t

/-- JS truthiness of a string value: `""` is falsy. -/
def strTruthy (s : String) : Bool := s ≠ ""

/-- JS truthiness of a nullable string field: `null`/`undefined` and `""`
are falsy. -/
def otv : Option String → Bool
  | none => false
  | some s => strTruthy s

/-- Embeds `String.prototype.trim`: strips whitespace from both ends. -/
def jsTrim (s : String) : String :=
  ⟨((s.data.dropWhile Char.isWhitespace).reverse.dropWhile
    Char.isWhitespace).reverse⟩

/-- Value of `o || d` for a nullable JS number (`0` is falsy). -/
def jsOrNat (o : Option Nat) (d : Nat) : Nat :=
  match o with
  | none => d
  | some n => if n = 0 then d else n

theorem toNat_ofNat_of_valid {n : Nat} (h : n.isValidChar) :
    (Char.ofNat n).toNat = n := by
  rw [Char.ofNat, dif_pos h]
  rfl

theorem toLower_toLower (c : Char) : c.toLower.toLower = c.toLower := by
  unfold Char.toLower
  by_cases h : c.toNat ≥ 65 ∧ c.toNat ≤ 90
  · rw [if_pos h]
    have hv : (c.toNat + 32).isValidChar := by
      left
      have := h.2
      omega
    have hn : (Char.ofNat (c.toNat + 32)).toNat = c.toNat + 32 :=
      toNat_ofNat_of_valid hv
    rw [if_neg]
    rw [hn]
    omega
  · rw [if_neg h, if_neg h]

theorem lc_lc (s : String) : lc (lc s) = lc s := by
  unfold lc
  congr 1
  rw [List.map_map]
  exact List.map_congr_left fun c _ => toLower_toLower c

theorem lc_eq_empty_iff (s : String) : lc s = "" ↔ s = "" := by
  unfold lc
  constructor
  · intro h
    have hd : (s.data.map Char.toLower) = [] := congrArg String.data h
    rcases s with ⟨d⟩
    cases d with
    | nil => rfl
    | cons a l => simp at hd
  · intro h
    subst h
    rfl

theorem lc_ne_empty {s : String} (h : s ≠ "") : lc s ≠ "" := by
  intro hc
  exact h ((lc_eq_empty_iff s).mp hc)

/-! ### Data model (section 3 of the design; object literals in server.js) -/

/-- Bounty lifecycle states, the string enum of `bounty.status`. -/
inductive Status where
  | open_
  | claimed
  | submitted
  | payment_pending
  | completed
  | cancelled
deriving DecidableEq, Repr

/-- One per-requirement autograder check, the objects pushed by `autograde`. -/
structure Check where
  req : String
  met : Bool
  reason : String
deriving DecidableEq, Repr

/-- One delivered unit of work, the objects pushed by the submit handler. -/
structure Submission where
  id : String
  content : String
  proof : Option String
  submittedAt : Nat
  editedAt : Option Nat
  autogradeScore : Nat
  autogradeChecks : List Check
deriving DecidableEq, Repr

/-- Audit record pushed by the reject handler onto `bounty.rejections`. -/
structure Rejection where
  rejectedAt : Nat
  reason : String
  previousClaimant : Option String
  previousSubmissions : List Submission
deriving DecidableEq, Repr

/-- Audit record pushed by the release handler onto `bounty.releases`. -/
structure ReleaseRec where
  releasedAt : Nat
  releasedBy : String
  previousStatus : Status
  submissions : List Submission
deriving DecidableEq, Repr

/-- The `bounty.payment` object attached after a successful onchain payout. -/
structure Payment where
  grossReward : Nat
  fee : Nat
  netReward : Nat
  txHash : String
deriving DecidableEq, Repr

/-- The `bounty.pendingPayment` object queued for the local payment relay. -/
structure PendingPayment where
  grossReward : Nat
  fee : Nat
  netReward : Nat
  recipient : String
deriving DecidableEq, Repr

/-- The bounty document.  `id` carries the store key (the client UUID in
memory-only mode); `reward` is `parseInt(bounty.reward)`, USDC smallest
units.  Timestamps are `Date.now()` milliseconds. -/
structure Bounty where
  id : String
  title : String
  description : String
  requirements : List String
  reward : Nat
  tags : List String
  deadline : Nat
  creator : String
  status : Status
  claimedBy : Option String
  claimedAt : Option Nat
  submissions : List Submission
  rejections : List Rejection
  releases : List ReleaseRec
  payment : Option Payment
  pendingPayment : Option PendingPayment
  approvedAt : Option Nat
  completedAt : Option Nat
  createdAt : Nat
  updatedAt : Nat
deriving DecidableEq, Repr

/-- Registered agent record mutated by the reputation side effect of a
completed bounty. -/
structure Agent where
  reputation : Nat
  completedBounties : Nat
  totalEarned : Nat
deriving DecidableEq, Repr

/-- In-memory `agents` map, keyed by wallet address. -/
def AgentsMap := String → Option Agent

/-- The agents map of a fresh process. -/
def emptyAgents : AgentsMap := fun _ => none

/-- The object constructed by POST /bounties (server.js lines 1073 to 1088,
likewise /internal/bounties): a fresh document in status open with no
claimant and no submissions.  `deadline || now + 7 days` and
`requirements || []` reproduce the JS defaulting. -/
def createBounty (uuid title description : String) (reward : Nat)
    (tags : List String) (deadline : Option Nat)
    (requirements : Option (List String)) (creator : String) (now : Nat) :
    Bounty :=
  { id := uuid
    title := title
    description := description
    requirements := requirements.getD []
    reward := reward
    tags := tags
    deadline := jsOrNat deadline (now + 7 * 24 * 60 * 60 * 1000)
    creator := creator
    status := Status.open_
    claimedBy := none
    claimedAt := none
    submissions := []
    rejections := []
    releases := []
    payment := none
    pendingPayment := none
    approvedAt := none
    completedAt := none
    createdAt := now
    updatedAt := now }

/-! ### Mod wallets (server.js lines 19 to 27) -/

/-- The hardcoded `MOD_WALLETS` list (already lowercase in the source). -/
def MOD_WALLETS : List String :=
  ["0x4c3a28d81c52f5ca03cd7e1c8b3c02b396937adc",
   "0x8f69c8eb92ed068aa577ce1847d568b39b0d9ebf"]

/-- Embeds `isMod(address)`: membership of the lowercased wallet. -/
def isMod (address : String) : Bool := MOD_WALLETS.contains (lc address)

/-! ### Rate limiter (server.js lines 112 to 145) -/

def RATE_LIMIT_WINDOW_MS : Nat := 60 * 1000
def RATE_LIMIT_MAX_CLAIMS : Nat := 3
def RATE_LIMIT_MAX_SUBMISSIONS : Nat := 5
def RATE_LIMIT_MAX_CREATES : Nat := 2
def MAX_PENDING_CLAIMS : Nat := 3

/-- One entry of the `rateLimits` map. -/
structure RateEntry where
  count : Nat
  windowStart : Nat
deriving DecidableEq, Repr

/-- The `rateLimits` map, keyed by `address.toLowerCase() + ":" + action`. -/
def RateTable := String → Option RateEntry

/-- The empty `rateLimits` map of a fresh process. -/
def emptyRT : RateTable := fun _ => none

/-- Outcome of `checkRateLimit`. -/
inductive RateCheck where
  | allowed
  | limited (retryAfter : Nat)
deriving DecidableEq, Repr

/-- The per-action limit table `{claim: 3, submit: 5, create: 2}` with the
`|| RATE_LIMIT_MAX_CLAIMS` fallback. -/
def limitFor (action : String) : Nat :=
  if action = "claim" then RATE_LIMIT_MAX_CLAIMS
  else if action = "submit" then RATE_LIMIT_MAX_SUBMISSIONS
  else if action = "create" then RATE_LIMIT_MAX_CREATES
  else RATE_LIMIT_MAX_CLAIMS

/-- Embeds `checkRateLimit(address, action)` at time `now`: reset the entry
when absent or expired, reject with the ceiling retry time when the count
reached the limit (leaving the map untouched), otherwise increment and
store.  `Math.ceil(x / 1000)` on a nonnegative integer is
`(x + 999) / 1000` in Nat arithmetic. -/
def checkRateLimit (rt : RateTable) (address action : String) (now : Nat) :
    RateCheck × RateTable :=
  let key := lc address ++ ":" ++ action
  let limit := limitFor action
  let entry : RateEntry :=
    match rt key with
    | some e =>
        if now - e.windowStart > RATE_LIMIT_WINDOW_MS then
          { count := 0, windowStart := now }
        else e
    | none => { count := 0, windowStart := now }
  if entry.count ≥ limit then
    (RateCheck.limited
       ((entry.windowStart + RATE_LIMIT_WINDOW_MS - now + 999) / 1000), rt)
  else
    (RateCheck.allowed,
     fun k =>
       if k = key then some { entry with count := entry.count + 1 }
       else rt k)

/-! ### Autograder (server.js lines 29 to 101)

The requirement heuristics do JS string work; we embed them over the
character lists.  `\s` is modelled by `Char.isWhitespace` (space, tab, CR,
LF), which covers every whitespace the server sees in practice. -/

/-- Splits a character list into maximal runs of non-whitespace characters;
the nonempty groups of `str.split(/\s+/).filter(w => w.length > 0)`. -/
def splitWsAux : List Char → List Char → List (List Char)
  | [], acc => if acc.isEmpty then [] else [acc.reverse]
  | c :: cs, acc =>
      if c.isWhitespace then
        if acc.isEmpty then splitWsAux cs []
        else acc.reverse :: splitWsAux cs []
      else splitWsAux cs (c :: acc)

/-- The word list of a string under the JS split-and-filter above. -/
def splitWords (s : String) : List String :=
  (splitWsAux s.data []).map fun cs => ⟨cs⟩

/-- Tries the tail of the regex `(\d+)\+?\s*LIT` at one position: one or
more digits, an optional plus, whitespace, then the literal.  The literal
never starts with a digit, a plus or whitespace, so greedy consumption is
exact. -/
def numLitAt (lit : List Char) : List Char → Bool
  | [] => false
  | c :: cs =>
      c.isDigit &&
        (let r1 := cs.dropWhile Char.isDigit
         let r2 := match r1 with
           | '+' :: r => r
           | r => r
         let r3 := r2.dropWhile Char.isWhitespace
         lit.isPrefixOf r3)

/-- Embeds the truthiness of `s.match(/(\d+)\+?\s*LIT/)`: the pattern
occurs somewhere in `s`.  For the source patterns `words?` and `min` the
optional trailing characters do not change matchability, so the literal is
the mandatory stem. -/
def hasNumPattern (lit : String) (s : String) : Bool :=
  s.data.tails.any (numLitAt lit.data)

/-- The first maximal digit run of a string, the capture of
`s.match(/(\d+)/)[1]`. -/
def firstDigitRun : List Char → List Char
  | [] => []
  | c :: cs =>
      if c.isDigit then (c :: cs).takeWhile Char.isDigit
      else firstDigitRun cs

/-- Decimal value of a digit run, the `parseInt` of the capture. -/
def digitsVal (ds : List Char) : Nat :=
  ds.foldl (fun a c => 10 * a + (c.toNat - 48)) 0

/-- Models `Math.round((metCount / total) * 100)` by exact rational
rounding, half away from zero: `(200 m + t) / (2 t)` in Nat arithmetic.
Exhaustively checked equal to the IEEE-754 double evaluation of the source
expression for every total up to 39; POST /bounties caps requirements at
20 (`MAX_REQUIREMENTS`). -/
def roundPercent (metCount total : Nat) : Nat :=
  (200 * metCount + total) / (2 * total)

/-- Result object of `autograde` (the zero-requirement early return leaves
`metCount`/`totalReqs` off the JS object; consumers derive them from
`checks`, and so do we). -/
structure GradeResult where
  score : Nat
  passed : Bool
  checks : List Check
deriving DecidableEq, Repr

/-- One iteration of the requirement loop of `autograde`: the branch
cascade on the lowercased requirement.  `content` and `proofUrl` arrive
already lowercased, as in the source.  The 80 percent word tolerance
`actual >= count * 0.8` is the exact comparison `10 actual >= 8 count`
(the float product differs only on adversarial counts beyond any real
requirement). -/
def gradeOne (content proofUrl : String) (req : String) : Check :=
  let reqLower := lc req
  if includes reqLower "url" || includes reqLower "link" ||
      includes reqLower "published" then
    let met := includes content "http" || includes proofUrl "http"
    { req := req, met := met,
      reason := if met then "URL provided" else "No URL found" }
  else if hasNumPattern "word" reqLower then
    let wordCount := digitsVal (firstDigitRun reqLower.data)
    let actualWords := (splitWords content).length
    { req := req, met := 10 * actualWords ≥ 8 * wordCount,
      reason := toString actualWords ++ " words (need " ++
        toString wordCount ++ ")" }
  else if hasNumPattern "min" reqLower then
    let met := includes proofUrl "youtube" || includes proofUrl "loom" ||
      includes proofUrl "vimeo"
    { req := req, met := met,
      reason := if met then "Video platform detected" else "No video URL found" }
  else if includes reqLower "youtube" then
    let met := includes content "youtube.com" || includes content "youtu.be" ||
      includes proofUrl "youtube"
    { req := req, met := met,
      reason := if met then "YouTube link found" else "No YouTube link" }
  else if includes reqLower "github" then
    let met := includes content "github.com" || includes proofUrl "github"
    { req := req, met := met,
      reason := if met then "GitHub link found" else "No GitHub link" }
  else if includes reqLower "moltbook" then
    let met := includes content "moltbook" || includes proofUrl "moltbook"
    { req := req, met := met,
      reason := if met then "Moltbook link found" else "No Moltbook link" }
  else if includes reqLower "screenshot" || includes reqLower "image" then
    let met := includes content ".png" || includes content ".jpg" ||
      includes content ".gif" || includes content "imgur"
    { req := req, met := met,
      reason := if met then "Image reference found" else "No image found" }
  else
    let keywords := (splitWords reqLower).filter fun w => w.length > 3
    let matched := keywords.filter fun kw => includes content kw
    let met := 2 * matched.length ≥ keywords.length
    { req := req, met := met,
      reason := if met then "Relevant content found" else "Missing key content" }

/-- Embeds `autograde(bounty, submission, proof)`: pass by default with no
requirements, otherwise grade each requirement and aggregate
`score = round(100 * metCount / total)`, `passed = score >= 90`. -/
def autograde (bounty : Bounty) (submission : String) (proof : String) :
    GradeResult :=
  let requirements := bounty.requirements
  let content := lc submission
  let proofUrl := lc proof
  if requirements.length = 0 then
    { score := 100, passed := true,
      checks := [{ req := "No specific requirements", met := true, reason := "" }] }
  else
    let checks := requirements.map (gradeOne content proofUrl)
    let metCount := (checks.filter fun c => c.met).length
    let score := roundPercent metCount checks.length
    { score := score, passed := score ≥ 90, checks := checks }

/-! ### Optimistic claim protocol (server.js lines 248 to 321 and 1121 to 1200)

The handler awaits the store several times; between two awaits a competing
request may commit.  `ClaimViews` carries the store state observed at each
read and at the conditional update, so the lost-race behaviour is the
sequential evaluation of the handler over these views.  A sequential
(uncontended) run uses the same view everywhere. -/

/-- Store views seen by one claim request: the full collection for the
pending-claim scan, the existence pre-check read, the read inside
`atomicClaim`, the state at the moment the conditional update executes,
and the re-read after a failed update. -/
structure ClaimViews where
  all : List Bounty
  pre : Option Bounty
  acRead : Option Bounty
  acWrite : Option Bounty
  reRead : Option Bounty

/-- The claim fields merged over the existing document by `atomicClaim`. -/
def mergeClaim (existing : Bounty) (claimerAddress : String) (now : Nat) :
    Bounty :=
  { existing with
    status := Status.claimed
    claimedBy := some (lc claimerAddress)
    claimedAt := some now
    updatedAt := now }

/-- Embeds `atomicClaim(id, claimerAddress)`.  With a durable store
(`db = true`) the read must show status open and the conditional update
`data->>status=eq.open` must still match at write time; zero matched rows
yield `none`.  Without a store the in-process fallback is a plain
check-then-set over the single memory view. -/
def atomicClaim (db : Bool) (acRead acWrite : Option Bounty)
    (claimerAddress : String) (now : Nat) : Option Bounty :=
  if db then
    match acRead with
    | none => none
    | some existing =>
        if existing.status ≠ Status.open_ then none
        else
          match acWrite with
          | some w =>
              if w.status = Status.open_ then
                some (mergeClaim existing claimerAddress now)
              else none
          | none => none
  else
    match acRead with
    | none => none
    | some b =>
        if b.status ≠ Status.open_ then none
        else some (mergeClaim b claimerAddress now)

/-- The anti-hoarding scan: bounties currently held by `address` in status
exactly claimed (server.js lines 1155 to 1159). -/
def pendingClaimsOf (address : String) (all : List Bounty) : List Bounty :=
  all.filter fun b =>
    (match b.claimedBy with
     | some c => lc c = lc address
     | none => false) && b.status = Status.claimed

/-- Responses of POST /bounties/:id/claim, tagged by their HTTP status. -/
inductive ClaimResult where
  /-- 200, the merged claimed document. -/
  | success (b : Bounty)
  /-- 400, address required. -/
  | addressRequired
  /-- 429 with a retry-after. -/
  | rateLimited (retryAfter : Nat)
  /-- 403, blocklisted wallet. -/
  | blocked
  /-- 429, pending-claim ceiling; carries the ids of the offending
  bounties (the source returns id, title and status triples). -/
  | pendingLimit (ids : List String)
  /-- 404, unknown bounty. -/
  | notFound
  /-- 403, creator claiming own bounty. -/
  | selfDeal
  /-- 409, lost the claim race; carries the winner identity and time. -/
  | raceConflict (claimedBy : Option String) (claimedAt : Option Nat)
  /-- 400, bounty not open and not claimed on re-read. -/
  | notOpen
deriving DecidableEq, Repr

/-- What one claim request did: its response, the document it wrote (none
on every refusal), and the rate table it left behind. -/
structure ClaimOut where
  result : ClaimResult
  written : Option Bounty
  rt : RateTable

/-- Embeds the POST /bounties/:id/claim handler body over the store views:
address guard, rate limit, blocklist, pending-claim ceiling, existence
pre-check, self-dealing guard, then `atomicClaim` with conflict
discrimination on the re-read. -/
def claimHandler (address : String) (rt : RateTable) (blocked : Bool)
    (now : Nat) (db : Bool) (v : ClaimViews) : ClaimOut :=
  if address = "" then
    { result := ClaimResult.addressRequired, written := none, rt := rt }
  else
    let rc := checkRateLimit rt address "claim" now
    let rt1 := rc.2
    match rc.1 with
    | RateCheck.limited retryAfter =>
        { result := ClaimResult.rateLimited retryAfter, written := none,
          rt := rt1 }
    | RateCheck.allowed =>
        if blocked then
          { result := ClaimResult.blocked, written := none, rt := rt1 }
        else
          let pending := pendingClaimsOf address v.all
          if pending.length ≥ MAX_PENDING_CLAIMS then
            { result := ClaimResult.pendingLimit (pending.map fun b => b.id),
              written := none, rt := rt1 }
          else
            match v.pre with
            | none =>
                { result := ClaimResult.notFound, written := none, rt := rt1 }
            | some bounty =>
                if strTruthy bounty.creator ∧ lc bounty.creator = lc address
                then
                  { result := ClaimResult.selfDeal, written := none, rt := rt1 }
                else
                  match atomicClaim db v.acRead v.acWrite address now with
                  | some claimed =>
                      { result := ClaimResult.success claimed,
                        written := some claimed, rt := rt1 }
                  | none =>
                      match v.reRead with
                      | some current =>
                          if current.status = Status.claimed then
                            { result := ClaimResult.raceConflict
                                current.claimedBy current.claimedAt,
                              written := none, rt := rt1 }
                          else
                            { result := ClaimResult.notOpen, written := none,
                              rt := rt1 }
                      | none =>
                          { result := ClaimResult.notOpen, written := none,
                            rt := rt1 }

/-- Uncontended sequential run of the claim handler against a single
bounty: every store view agrees. -/
def claimSeq (b : Bounty) (all : List Bounty) (address : String)
    (rt : RateTable) (blocked : Bool) (now : Nat) : ClaimOut :=
  claimHandler address rt blocked now true
    { all := all, pre := some b, acRead := some b, acWrite := some b,
      reRead := some b }

/-! ### Submit, edit and delete (server.js lines 1202 to 1356) -/

def MAX_SUBMISSION_LENGTH : Nat := 5000
def MIN_WORK_TIME_MS : Nat := 10 * 60 * 1000

/-- Responses of POST /bounties/:id/submit. -/
inductive SubmitResult where
  /-- 200, updated bounty and the advisory score. -/
  | ok (b : Bounty) (score : Nat)
  /-- 400, address required. -/
  | addressRequired
  /-- 429 with retry-after. -/
  | rateLimited (retryAfter : Nat)
  /-- 404. -/
  | notFound
  /-- 403, only the claiming agent can submit. -/
  | notClaimer
  /-- 400, submission required. -/
  | submissionRequired
  /-- 400, minimum work time not reached; carries the remaining minutes. -/
  | tooFast (waitMins : Nat)
  /-- 400, proof URL required over the 30 dollar threshold. -/
  | proofRequired
  /-- 413, oversized submission. -/
  | tooLarge (yourLength : Nat)
  /-- 400, advisory autograder rejected obvious garbage. -/
  | autoRejected (score : Nat)
deriving DecidableEq, Repr

/-- Embeds the POST /bounties/:id/submit handler: address and rate guards,
claimant check, the three anti-gaming guards (minimum work time over 20
dollars, proof requirement over 30 dollars, payload ceiling), the advisory
autograde with its garbage auto-reject, then the append of the submission
and the transition to status submitted.  The dollar comparisons
`parseFloat(reward)/1e6 > 20` and `> 30` are the exact integer comparisons
on smallest units.  `subId` stands for the generated `uuidv4()`. -/
def submitHandler (ob : Option Bounty) (address : String)
    (submission : Option String) (proof : Option String) (rt : RateTable)
    (now : Nat) (subId : String) : SubmitResult × RateTable :=
  if address = "" then (SubmitResult.addressRequired, rt)
  else
    let rc := checkRateLimit rt address "submit" now
    let rt1 := rc.2
    match rc.1 with
    | RateCheck.limited retryAfter =>
        (SubmitResult.rateLimited retryAfter, rt1)
    | RateCheck.allowed =>
        match ob with
        | none => (SubmitResult.notFound, rt1)
        | some bounty =>
            if bounty.claimedBy ≠ some (lc address) then
              (SubmitResult.notClaimer, rt1)
            else if ¬ otv submission then
              (SubmitResult.submissionRequired, rt1)
            else
              let s := submission.getD ""
              if bounty.reward > 20 * 1000000 ∧
                  (match bounty.claimedAt with
                   | some t =>
                       (t ≠ 0 : Bool) && ((now : Int) - t < MIN_WORK_TIME_MS : Bool)
                   | none => false) = true then
                let diff : Int := (now : Int) - (bounty.claimedAt.getD 0)
                (SubmitResult.tooFast
                   ((((MIN_WORK_TIME_MS : Int) - diff) + 59999).toNat / 60000),
                 rt1)
              else if bounty.reward > 30 * 1000000 ∧ ¬ otv proof ∧
                  ¬ includes s "http" then
                (SubmitResult.proofRequired, rt1)
              else if s.length > MAX_SUBMISSION_LENGTH then
                (SubmitResult.tooLarge s.length, rt1)
              else
                let grade := autograde bounty s (proof.getD "")
                let hasProofUrl :=
                  includes s "http" || includes (proof.getD "") "http"
                if grade.score < 20 ∧ ¬ hasProofUrl then
                  (SubmitResult.autoRejected grade.score, rt1)
                else
                  let b1 :=
                    { bounty with
                      submissions := bounty.submissions ++
                        [{ id := subId
                           content := s
                           proof := if otv proof then proof else none
                           submittedAt := now
                           editedAt := none
                           autogradeScore := grade.score
                           autogradeChecks := grade.checks }]
                      status := Status.submitted
                      updatedAt := now }
                  (SubmitResult.ok b1 grade.score, rt1)

/-- Responses of PUT /bounties/:id/submissions/:subId. -/
inductive EditResult where
  | ok (b : Bounty)
  | notFound
  | addressRequired
  | notClaimer
  | subNotFound
deriving DecidableEq, Repr

/-- Embeds the submission edit handler: claimant only; overwrites content
and proof when the request carries them (absent request fields leave the
stored value), stamps `editedAt` and `updatedAt`.  The source mutates the
first submission whose id matches. -/
def editSubmissionHandler (ob : Option Bounty) (address : String)
    (subId : String) (submission : Option String) (proof : Option String)
    (now : Nat) : EditResult :=
  match ob with
  | none => EditResult.notFound
  | some bounty =>
      if address = "" then EditResult.addressRequired
      else if bounty.claimedBy ≠ some (lc address) then EditResult.notClaimer
      else
        match bounty.submissions.findIdx? (fun s => s.id = subId) with
        | none => EditResult.subNotFound
        | some idx =>
            match bounty.submissions[idx]? with
            | none => EditResult.subNotFound
            | some sub =>
                let sub1 :=
                  { sub with
                    content := submission.getD sub.content
                    proof := match proof with
                      | some p => some p
                      | none => sub.proof
                    editedAt := some now }
                EditResult.ok
                  { bounty with
                    submissions := bounty.submissions.set idx sub1
                    updatedAt := now }

/-- Responses of DELETE /bounties/:id/submissions/:subId. -/
inductive DeleteSubResult where
  | ok (b : Bounty)
  | notFound
  | addressRequired
  | notClaimer
  | subNotFound
deriving DecidableEq, Repr

/-- Embeds the submission delete handler: claimant only; splices out the
first submission whose id matches, reverts status submitted to claimed
when no submission remains, stamps `updatedAt`.  No other status is
touched. -/
def deleteSubmissionHandler (ob : Option Bounty) (address : String)
    (subId : String) (now : Nat) : DeleteSubResult :=
  match ob with
  | none => DeleteSubResult.notFound
  | some bounty =>
      if address = "" then DeleteSubResult.addressRequired
      else if bounty.claimedBy ≠ some (lc address) then
        DeleteSubResult.notClaimer
      else
        match bounty.submissions.findIdx? (fun s => s.id = subId) with
        | none => DeleteSubResult.subNotFound
        | some idx =>
            let subs1 := bounty.submissions.eraseIdx idx
            let status1 :=
              if subs1.length = 0 ∧ bounty.status = Status.submitted then
                Status.claimed
              else bounty.status
            DeleteSubResult.ok
              { bounty with
                submissions := subs1
                status := status1
                updatedAt := now }

/-! ### Approve (server.js lines 1358 to 1570) -/

/-- Locates the first occurrence of `sep` in a character list and returns
the parts before and after it. -/
def splitAtSub (sep : List Char) : List Char → Option (List Char × List Char)
  | [] => none
  | c :: cs =>
      if sep.isPrefixOf (c :: cs) then some ([], (c :: cs).drop sep.length)
      else
        match splitAtSub sep cs with
        | some (pre, post) => some (c :: pre, post)
        | none => none

/-- Models the hostname and pathname extraction of `new URL(content)` for
the scheme://host/path URLs the garbage filter inspects (the WHATWG parser
lowercases the hostname and defaults the pathname to a slash); `none`
models the constructor throwing, which the filter swallows. -/
def parseUrl (s : String) : Option (String × String) :=
  match splitAtSub ['/', '/'] s.data with
  | none => none
  | some (_, rest) =>
      let hostChars := rest.takeWhile fun c => c ≠ '/' && c ≠ '?' && c ≠ '#'
      let afterHost := rest.dropWhile fun c => c ≠ '/' && c ≠ '?' && c ≠ '#'
      let pathChars := afterHost.takeWhile fun c => c ≠ '?' && c ≠ '#'
      some (lc ⟨hostChars⟩, if pathChars.isEmpty then "/" else ⟨pathChars⟩)

def FEE_PERCENT : Nat := 5

/-- External collaborators of the approve handler: the key check against
the environment, the `ethers.isAddress` validation, whether a treasury
wallet key is configured, the USDC balance read, and the outcome of the
onchain transfer (`Except.error` models the thrown exception). -/
structure ApproveEnv where
  now : Nat
  keyOk : Bool
  claimedByIsAddress : Bool
  walletKeyPresent : Bool
  treasuryBalance : Nat
  transferOutcome : Except String String

/-- Responses of POST /bounties/:id/approve. -/
inductive ApproveResult where
  /-- 404. -/
  | notFound
  /-- 400, no submission to approve (status is not submitted). -/
  | notSubmitted
  /-- 401, no internal key, mod wallet or creator signature. -/
  | authRequired
  /-- 403, mod approving the own submission. -/
  | conflictOfInterest
  /-- 400, submission content shorter than 10 characters. -/
  | contentTooShort
  /-- 400, submission URL matches a test or placeholder pattern. -/
  | placeholderUrl
  /-- 400, claim-to-submit gap under a minute; carries the gap seconds. -/
  | tooFastSubmit (secs : Nat)
  /-- 400, claimant wallet missing or invalid. -/
  | invalidRecipient
  /-- 400, treasury balance below the net reward. -/
  | insufficientTreasury (available needed : Nat)
  /-- 500, the onchain transfer threw; the bounty is left submitted. -/
  | transferFailed (details : String)
  /-- 200, no wallet key: queued for the payment relay. -/
  | queuedPending
  /-- 200, paid onchain and completed. -/
  | paid (txHash : String)
deriving DecidableEq, Repr

/-- Result of one approve request: the response, the bounty document as
persisted afterwards (the input document on every refusal), and the agents
map afterwards. -/
structure ApproveOut where
  result : ApproveResult
  bounty : Option Bounty
  agents : AgentsMap

/-- Embeds the POST /bounties/:id/approve handler: status guard,
authentication (internal key, mod wallet or an unverified creator
signature), the conflict-of-interest check on the mod wallet, the garbage
filter over the last submission, the 5 percent fee split, then either the
payment-relay queueing (no wallet key) or the synchronous USDC transfer,
which alone may complete the bounty and bump the agent reputation. -/
def approveHandler (ob : Option Bounty) (modWallet creatorSignature : Option String)
    (env : ApproveEnv) (agents : AgentsMap) : ApproveOut :=
  match ob with
  | none => { result := ApproveResult.notFound, bounty := none, agents := agents }
  | some bounty =>
      if bounty.status ≠ Status.submitted then
        { result := ApproveResult.notSubmitted, bounty := some bounty,
          agents := agents }
      else
        let validInternalKey := env.keyOk
        let isModApproval := otv modWallet && isMod (modWallet.getD "")
        if ¬ validInternalKey ∧ ¬ isModApproval ∧ ¬ otv creatorSignature then
          { result := ApproveResult.authRequired, bounty := some bounty,
            agents := agents }
        else if otv modWallet ∧ otv bounty.claimedBy ∧
            lc (modWallet.getD "") = lc (bounty.claimedBy.getD "") then
          { result := ApproveResult.conflictOfInterest, bounty := some bounty,
            agents := agents }
        else
          let validation : Option ApproveResult :=
            match bounty.submissions.getLast? with
            | none => none
            | some lastSubmission =>
                let content := jsTrim lastSubmission.content
                if content.length < 10 then some ApproveResult.contentTooShort
                else
                  let urlReject :=
                    if includes content "http" &&
                        "http".data.isPrefixOf content.data then
                      match parseUrl content with
                      | some (hostname, pathname) =>
                          includes pathname "/test/" ||
                            hostname = "example.com" || hostname = "localhost"
                      | none => false
                    else false
                  if urlReject then some ApproveResult.placeholderUrl
                  else
                    let claimToSubmitMs : Int :=
                      (lastSubmission.submittedAt : Int) -
                        (jsOrNat bounty.claimedAt 0 : Int)
                    if 0 < claimToSubmitMs ∧ claimToSubmitMs < 60000 then
                      some (ApproveResult.tooFastSubmit
                        ((claimToSubmitMs + 500).toNat / 1000))
                    else none
          match validation with
          | some err =>
              { result := err, bounty := some bounty, agents := agents }
          | none =>
              let grossReward := bounty.reward
              let fee := grossReward * FEE_PERCENT / 100
              let netReward := grossReward - fee
              if ¬ otv bounty.claimedBy ∨ ¬ env.claimedByIsAddress then
                { result := ApproveResult.invalidRecipient,
                  bounty := some bounty, agents := agents }
              else
                let recipient := bounty.claimedBy.getD ""
                if ¬ env.walletKeyPresent then
                  { result := ApproveResult.queuedPending
                    bounty := some
                      { bounty with
                        status := Status.payment_pending
                        approvedAt := some env.now
                        updatedAt := env.now
                        pendingPayment := some
                          { grossReward := grossReward, fee := fee,
                            netReward := netReward, recipient := recipient } }
                    agents := agents }
                else if env.treasuryBalance < netReward then
                  { result := ApproveResult.insufficientTreasury
                      env.treasuryBalance netReward,
                    bounty := some bounty, agents := agents }
                else
                  match env.transferOutcome with
                  | Except.error msg =>
                      { result := ApproveResult.transferFailed msg,
                        bounty := some bounty, agents := agents }
                  | Except.ok txHash =>
                      { result := ApproveResult.paid txHash
                        bounty := some
                          { bounty with
                            status := Status.completed
                            completedAt := some env.now
                            updatedAt := env.now
                            payment := some
                              { grossReward := grossReward, fee := fee,
                                netReward := netReward, txHash := txHash } }
                        agents := fun k =>
                          if k = recipient then
                            match agents recipient with
                            | some a =>
                                some { a with
                                  reputation := a.reputation + 10
                                  completedBounties := a.completedBounties + 1
                                  totalEarned := a.totalEarned + netReward }
                            | none => none
                          else agents k }

/-! ### Reject, release, cancel (server.js lines 1616 to 1864) -/

/-- Responses of POST /bounties/:id/reject. -/
inductive RejectResult where
  | ok (b : Bounty)
  | notFound
  | authRequired
  | badStatus
deriving DecidableEq, Repr

/-- Embeds the admin reject handler: internal key required, status must be
submitted or claimed; appends one rejection audit record carrying the
previous claimant and submissions, then resets the bounty to open. -/
def rejectHandler (ob : Option Bounty) (reason : Option String)
    (keyOk : Bool) (now : Nat) : RejectResult :=
  match ob with
  | none => RejectResult.notFound
  | some bounty =>
      if ¬ keyOk then RejectResult.authRequired
      else if bounty.status ≠ Status.submitted ∧
          bounty.status ≠ Status.claimed then
        RejectResult.badStatus
      else
        RejectResult.ok
          { bounty with
            rejections := bounty.rejections ++
              [{ rejectedAt := now
                 reason :=
                   if otv reason then reason.getD ""
                   else "Submission did not meet requirements"
                 previousClaimant := bounty.claimedBy
                 previousSubmissions := bounty.submissions }]
            status := Status.open_
            claimedBy := none
            claimedAt := none
            submissions := []
            updatedAt := now }

/-- Responses of POST /bounties/:id/release. -/
inductive ReleaseResult where
  | ok (b : Bounty)
  | notFound
  | addressRequired
  | notClaimer
  | badStatus
deriving DecidableEq, Repr

/-- Embeds the claimant release handler: claimant only, status claimed or
submitted; appends one release audit record carrying the previous status
and submissions, then resets the bounty to open. -/
def releaseHandler (ob : Option Bounty) (address : String) (now : Nat) :
    ReleaseResult :=
  match ob with
  | none => ReleaseResult.notFound
  | some bounty =>
      if address = "" then ReleaseResult.addressRequired
      else if (match bounty.claimedBy with
               | some c => (lc c ≠ lc address : Bool)
               | none => true) = true then
        ReleaseResult.notClaimer
      else if bounty.status ≠ Status.claimed ∧
          bounty.status ≠ Status.submitted then
        ReleaseResult.badStatus
      else
        ReleaseResult.ok
          { bounty with
            releases := bounty.releases ++
              [{ releasedAt := now
                 releasedBy := lc address
                 previousStatus := bounty.status
                 submissions := bounty.submissions }]
            status := Status.open_
            claimedBy := none
            claimedAt := none
            submissions := []
            updatedAt := now }

/-- Responses of POST /bounties/:id/cancel. -/
inductive CancelResult where
  | ok (b : Bounty)
  | notFound
  | notCreator
  | badStatus
deriving DecidableEq, Repr

/-- Embeds the creator cancel handler: the stored creator must equal the
lowercased request address exactly, and only an open bounty cancels. -/
def cancelHandler (ob : Option Bounty) (address : String) (now : Nat) :
    CancelResult :=
  match ob with
  | none => CancelResult.notFound
  | some bounty =>
      if bounty.creator ≠ lc address then CancelResult.notCreator
      else if bounty.status ≠ Status.open_ then CancelResult.badStatus
      else
        CancelResult.ok
          { bounty with status := Status.cancelled, updatedAt := now }

/-! ### The lifecycle invariant and reachability -/

/-- The statuses that demand a claimant. -/
def claimedLike (s : Status) : Prop :=
  s = Status.claimed ∨ s = Status.submitted ∨ s = Status.payment_pending ∨
    s = Status.completed

/-- The statuses that demand delivered work. -/
def submittedLike (s : Status) : Prop :=
  s = Status.submitted ∨ s = Status.payment_pending ∨ s = Status.completed

instance (s : Status) : Decidable (claimedLike s) := by
  unfold claimedLike
  infer_instance

instance (s : Status) : Decidable (submittedLike s) := by
  unfold submittedLike
  infer_instance

/-- The specified state invariants: a claimant exactly in the claimed-like
statuses, submissions exactly in the submitted-like statuses, and a
creator who never holds the own bounty. -/
def Inv (b : Bounty) : Prop :=
  (b.claimedBy ≠ none ↔ claimedLike b.status) ∧
    (b.submissions ≠ [] ↔ submittedLike b.status) ∧
    (∀ c, b.claimedBy = some c → b.creator ≠ c)

/-- One successful public mutation of a single bounty document, as
performed by the embedded handlers.  The approve constructor covers every
outcome through its persisted document, refusals included (these leave the
document unchanged). -/
inductive Step : Bounty → Bounty → Prop where
  | claim (all : List Bounty) (address : String) (rt : RateTable)
      (blocked : Bool) (now : Nat) {b b' : Bounty} :
      (claimSeq b all address rt blocked now).result =
        ClaimResult.success b' → Step b b'
  | submit (address : String) (submission proof : Option String)
      (rt : RateTable) (now : Nat) (subId : String) (score : Nat)
      {b b' : Bounty} :
      (submitHandler (some b) address submission proof rt now subId).1 =
        SubmitResult.ok b' score → Step b b'
  | editSub (address subId : String) (submission proof : Option String)
      (now : Nat) {b b' : Bounty} :
      editSubmissionHandler (some b) address subId submission proof now =
        EditResult.ok b' → Step b b'
  | deleteSub (address subId : String) (now : Nat) {b b' : Bounty} :
      deleteSubmissionHandler (some b) address subId now =
        DeleteSubResult.ok b' → Step b b'
  | approve (modWallet creatorSignature : Option String) (env : ApproveEnv)
      (agents : AgentsMap) {b b' : Bounty} :
      (approveHandler (some b) modWallet creatorSignature env agents).bounty =
        some b' → Step b b'
  | reject (reason : Option String) (keyOk : Bool) (now : Nat)
      {b b' : Bounty} :
      rejectHandler (some b) reason keyOk now = RejectResult.ok b' →
        Step b b'
  | release (address : String) (now : Nat) {b b' : Bounty} :
      releaseHandler (some b) address now = ReleaseResult.ok b' → Step b b'
  | cancel (address : String) (now : Nat) {b b' : Bounty} :
      cancelHandler (some b) address now = CancelResult.ok b' → Step b b'

/-- Bounties reachable from a fresh creation by the public mutations. -/
inductive Reachable : Bounty → Prop where
  | created (uuid title description : String) (reward : Nat)
      (tags : List String) (deadline : Option Nat)
      (requirements : Option (List String)) (creator : String) (now : Nat) :
      Reachable (createBounty uuid title description reward tags deadline
        requirements creator now)
  | step {b b' : Bounty} : Reachable b → Step b b' → Reachable b'

/-- Reachability restricted so that a submission delete is never issued
against a bounty already in payment, the one sequence the code leaves
unguarded. -/
inductive ReachableR : Bounty → Prop where
  | created (uuid title description : String) (reward : Nat)
      (tags : List String) (deadline : Option Nat)
      (requirements : Option (List String)) (creator : String) (now : Nat) :
      ReachableR (createBounty uuid title description reward tags deadline
        requirements creator now)
  | step {b b' : Bounty} : ReachableR b → Step b b' →
      (∀ address subId now, deleteSubmissionHandler (some b) address subId now =
        DeleteSubResult.ok b' →
        b.status ≠ Status.payment_pending ∧ b.status ≠ Status.completed) →
      ReachableR b'

/-! ### Inversion lemmas for successful handler runs -/

theorem claimSeq_ok {b b' : Bounty} {all : List Bounty} {address : String}
    {rt : RateTable} {blocked : Bool} {now : Nat}
    (h : (claimSeq b all address rt blocked now).result =
      ClaimResult.success b') :
    address ≠ "" ∧ b.status = Status.open_ ∧
      ¬(strTruthy b.creator = true ∧ lc b.creator = lc address) ∧
      b' = mergeClaim b address now := by
  unfold claimSeq claimHandler at h
  by_cases ha : address = ""
  · simp [ha] at h
  · rw [if_neg ha] at h
    refine ⟨ha, ?_⟩
    rcases hrc : (checkRateLimit rt address "claim" now).1 with _ | r
    swap
    · simp only [hrc] at h; simp at h
    simp only [hrc] at h
    split at h
    · simp at h
    · split at h
      · simp at h
      · split at h
        · simp at h
        · split at h
          next w heq =>
            simp only [ClaimOut.result] at h
            injection h with hw
            subst hw
            unfold atomicClaim at heq
            rw [if_pos rfl] at heq
            simp only [] at heq
            split at heq
            · simp at heq
            · split at heq
              · injection heq with hm
                exact ⟨by simp_all, by assumption, hm.symm⟩
              · simp at heq
          next heq =>
            split at h
            · simp at h
            · simp at h

theorem claimSeq_success {b : Bounty} {all : List Bounty} {address : String}
    {rt : RateTable} {blocked : Bool} {now : Nat}
    (ha : address ≠ "")
    (hrc : (checkRateLimit rt address "claim" now).1 = RateCheck.allowed)
    (hbl : blocked = false)
    (hp : (pendingClaimsOf address all).length < MAX_PENDING_CLAIMS)
    (hsd : ¬(strTruthy b.creator = true ∧ lc b.creator = lc address))
    (hopen : b.status = Status.open_) :
    (claimSeq b all address rt blocked now).result =
      ClaimResult.success (mergeClaim b address now) := by
  unfold claimSeq claimHandler atomicClaim
  rw [if_neg ha]
  simp only [hrc, hbl, if_false, Bool.false_eq_true]
  rw [if_neg (by omega)]
  rw [if_neg hsd]
  simp [hopen]

theorem submit_ok {b b' : Bounty} {address : String}
    {submission proof : Option String} {rt : RateTable} {now : Nat}
    {subId : String} {score : Nat}
    (h : (submitHandler (some b) address submission proof rt now subId).1 =
      SubmitResult.ok b' score) :
    b.claimedBy = some (lc address) ∧
      ∃ sub, b' = { b with
        submissions := b.submissions ++ [sub]
        status := Status.submitted
        updatedAt := now } := by
  unfold submitHandler at h
  dsimp only at h
  by_cases ha : address = ""
  · simp [ha] at h
  · rw [if_neg ha] at h
    rcases hrc : (checkRateLimit rt address "submit" now).1 with _ | r
    swap
    · simp only [hrc] at h; simp at h
    simp only [hrc] at h
    split at h
    · simp at h
    · split at h
      · simp at h
      · split at h
        · simp at h
        · split at h
          · simp at h
          · split at h
            · simp at h
            · split at h
              · simp at h
              · simp only [] at h
                injection h with h1
                refine ⟨by simp_all, ?_⟩
                exact ⟨_, h1.symm⟩

theorem edit_ok {b b' : Bounty} {address subId : String}
    {submission proof : Option String} {now : Nat}
    (h : editSubmissionHandler (some b) address subId submission proof now =
      EditResult.ok b') :
    ∃ idx sub1, b' = { b with
      submissions := b.submissions.set idx sub1
      updatedAt := now } := by
  unfold editSubmissionHandler at h
  dsimp only at h
  split at h
  · simp at h
  · split at h
    · simp at h
    · split at h
      · simp at h
      · split at h
        · simp at h
        · injection h with h1
          exact ⟨_, _, h1.symm⟩

theorem delete_ok {b b' : Bounty} {address subId : String} {now : Nat}
    (h : deleteSubmissionHandler (some b) address subId now =
      DeleteSubResult.ok b') :
    b.claimedBy = some (lc address) ∧
      ∃ idx, b.submissions.findIdx? (fun s => s.id = subId) = some idx ∧
        b' = { b with
          submissions := b.submissions.eraseIdx idx
          status :=
            if (b.submissions.eraseIdx idx).length = 0 ∧
                b.status = Status.submitted then
              Status.claimed
            else b.status
          updatedAt := now } := by
  unfold deleteSubmissionHandler at h
  dsimp only at h
  split at h
  · simp at h
  · split at h
    next hcl =>
      simp at h
    next hcl =>
      split at h
      · simp at h
      · next idx hidx =>
          injection h with h1
          refine ⟨by simp_all, idx, hidx, h1.symm⟩

theorem reject_ok {b b' : Bounty} {reason : Option String} {keyOk : Bool}
    {now : Nat}
    (h : rejectHandler (some b) reason keyOk now = RejectResult.ok b') :
    (b.status = Status.submitted ∨ b.status = Status.claimed) ∧
      b' = { b with
        rejections := b.rejections ++
          [{ rejectedAt := now
             reason :=
               if otv reason then reason.getD ""
               else "Submission did not meet requirements"
             previousClaimant := b.claimedBy
             previousSubmissions := b.submissions }]
        status := Status.open_
        claimedBy := none
        claimedAt := none
        submissions := []
        updatedAt := now } := by
  unfold rejectHandler at h
  dsimp only at h
  split at h
  · simp at h
  · split at h
    · simp at h
    · next hst =>
        injection h with h1
        refine ⟨by tauto, h1.symm⟩

theorem release_ok {b b' : Bounty} {address : String} {now : Nat}
    (h : releaseHandler (some b) address now = ReleaseResult.ok b') :
    (b.status = Status.claimed ∨ b.status = Status.submitted) ∧
      b' = { b with
        releases := b.releases ++
          [{ releasedAt := now
             releasedBy := lc address
             previousStatus := b.status
             submissions := b.submissions }]
        status := Status.open_
        claimedBy := none
        claimedAt := none
        submissions := []
        updatedAt := now } := by
  unfold releaseHandler at h
  dsimp only at h
  split at h
  · simp at h
  · split at h
    · simp at h
    · split at h
      · simp at h
      · next hst =>
          injection h with h1
          refine ⟨by tauto, h1.symm⟩

theorem cancel_ok {b b' : Bounty} {address : String} {now : Nat}
    (h : cancelHandler (some b) address now = CancelResult.ok b') :
    b.status = Status.open_ ∧
      b' = { b with status := Status.cancelled, updatedAt := now } := by
  unfold cancelHandler at h
  dsimp only at h
  split at h
  · simp at h
  · split at h
    · simp at h
    · next hst =>
        injection h with h1
        refine ⟨by tauto, h1.symm⟩

theorem approve_cases {b b' : Bounty} {modWallet creatorSignature : Option String}
    {env : ApproveEnv} {agents : AgentsMap}
    (h : (approveHandler (some b) modWallet creatorSignature env agents).bounty =
      some b') :
    b' = b ∨
      (b.status = Status.submitted ∧
        (b'.status = Status.payment_pending ∨ b'.status = Status.completed) ∧
        b'.claimedBy = b.claimedBy ∧ b'.submissions = b.submissions ∧
        b'.creator = b.creator) := by
  unfold approveHandler at h
  dsimp only at h
  split at h
  next hst =>
    injection h with h1
    exact Or.inl h1.symm
  next hst =>
    split at h
    · injection h with h1
      exact Or.inl h1.symm
    · split at h
      · injection h with h1
        exact Or.inl h1.symm
      · split at h
        · injection h with h1
          exact Or.inl h1.symm
        · split at h
          · injection h with h1
            exact Or.inl h1.symm
          · split at h
            · injection h with h1
              refine Or.inr ⟨not_not.mp hst, ?_⟩
              rw [← h1]
              exact ⟨Or.inl rfl, rfl, rfl, rfl⟩
            · split at h
              · injection h with h1
                exact Or.inl h1.symm
              · split at h
                · injection h with h1
                  exact Or.inl h1.symm
                · injection h with h1
                  refine Or.inr ⟨not_not.mp hst, ?_⟩
                  rw [← h1]
                  exact ⟨Or.inr rfl, rfl, rfl, rfl⟩

/-! ### Invariant preservation -/

theorem inv_created (uuid title description : String) (reward : Nat)
    (tags : List String) (deadline : Option Nat)
    (requirements : Option (List String)) (creator : String) (now : Nat) :
    Inv (createBounty uuid title description reward tags deadline
      requirements creator now) := by
  refine ⟨?_, ?_, ?_⟩ <;>
    simp [createBounty, Inv, claimedLike, submittedLike]

theorem step_preserves_inv {b b' : Bounty} (hs : Step b b')
    (hguard : ∀ address subId now,
      deleteSubmissionHandler (some b) address subId now =
        DeleteSubResult.ok b' →
      b.status ≠ Status.payment_pending ∧ b.status ≠ Status.completed)
    (hinv : Inv b) : Inv b' := by
  obtain ⟨inv1, inv2, inv3⟩ := hinv
  cases hs with
  | claim all address rt blocked now h =>
      obtain ⟨ha, hopen, hsd, hb'⟩ := claimSeq_ok h
      subst hb'
      have hsub : b.submissions = [] := by
        by_contra hne
        have := inv2.mp hne
        rw [hopen] at this
        simp [submittedLike] at this
      refine ⟨?_, ?_, ?_⟩
      · simp [mergeClaim, claimedLike]
      · simp [mergeClaim, submittedLike, hsub]
      · intro c hc hcon
        simp only [mergeClaim] at hc
        injection hc with hc
        subst hc
        simp only [mergeClaim] at hcon
        by_cases hcr : b.creator = ""
        · rw [hcr] at hcon
          exact lc_ne_empty ha hcon.symm
        · apply hsd
          refine ⟨by simpa [strTruthy] using hcr, ?_⟩
          rw [hcon, lc_lc]
  | submit address submission proof rt now subId score h =>
      obtain ⟨hcb, sub, hb'⟩ := submit_ok h
      subst hb'
      refine ⟨?_, ?_, ?_⟩
      · simp [hcb, claimedLike]
      · simp [submittedLike]
      · intro c hc
        exact inv3 c hc
  | editSub address subId submission proof now h =>
      obtain ⟨idx, sub1, hb'⟩ := edit_ok h
      subst hb'
      have hiff : b.submissions.set idx sub1 = [] ↔ b.submissions = [] := by
        constructor <;> intro hh
        · have hl := congrArg List.length hh
          simp [List.length_set] at hl
          exact hl
        · rw [hh]
          simp
      refine ⟨inv1, ?_, inv3⟩
      dsimp only
      constructor
      · intro hne
        exact inv2.mp fun hnil => hne (hiff.mpr hnil)
      · intro hl hnil
        exact (inv2.mpr hl) (hiff.mp hnil)
  | deleteSub address subId now h =>
      obtain ⟨hnpp, hnc⟩ := hguard address subId now h
      obtain ⟨hcb, idx, hidx, hb'⟩ := delete_ok h
      subst hb'
      have hcl : claimedLike b.status := inv1.mp (by simp [hcb])
      have hst : b.status = Status.submitted := by
        rcases hcl with h1 | h1 | h1 | h1
        · exfalso
          have hsub : b.submissions = [] := by
            by_contra hne
            have := inv2.mp hne
            rw [h1] at this
            simp [submittedLike] at this
          rw [hsub] at hidx
          simp [List.findIdx?] at hidx
        · exact h1
        · exact absurd h1 hnpp
        · exact absurd h1 hnc
      by_cases hempty : (b.submissions.eraseIdx idx).length = 0
      · refine ⟨?_, ?_, ?_⟩
        · simp [hcb, hst, hempty, claimedLike]
        · simp [hst, hempty, submittedLike, List.length_eq_zero.mp hempty]
        · intro c hc
          exact inv3 c hc
      · refine ⟨?_, ?_, ?_⟩
        · simp [hcb, hst, hempty, claimedLike]
        · have hne : b.submissions.eraseIdx idx ≠ [] := by
            intro hnil
            rw [hnil] at hempty
            simp at hempty
          simp [hst, hempty, submittedLike, hne]
        · intro c hc
          exact inv3 c hc
  | approve modWallet creatorSignature env agents h =>
      rcases approve_cases h with hb' | ⟨hst, hst', hcb, hsub, hcr⟩
      · subst hb'
        exact ⟨inv1, inv2, inv3⟩
      · refine ⟨?_, ?_, ?_⟩
        · rw [hcb]
          constructor
          · intro _
            rcases hst' with h1 | h1 <;> rw [h1] <;> simp [claimedLike]
          · intro _
            apply inv1.mpr
            rw [hst]
            simp [claimedLike]
        · rw [hsub]
          constructor
          · intro _
            rcases hst' with h1 | h1 <;> rw [h1] <;> simp [submittedLike]
          · intro _
            apply inv2.mpr
            rw [hst]
            simp [submittedLike]
        · intro c hc
          rw [hcr]
          rw [hcb] at hc
          exact inv3 c hc
  | reject reason keyOk now h =>
      obtain ⟨_, hb'⟩ := reject_ok h
      subst hb'
      refine ⟨?_, ?_, ?_⟩
      · simp [claimedLike]
      · simp [submittedLike]
      · intro c hc
        simp at hc
  | release address now h =>
      obtain ⟨_, hb'⟩ := release_ok h
      subst hb'
      refine ⟨?_, ?_, ?_⟩
      · simp [claimedLike]
      · simp [submittedLike]
      · intro c hc
        simp at hc
  | cancel address now h =>
      obtain ⟨hopen, hb'⟩ := cancel_ok h
      subst hb'
      have hcb : b.claimedBy = none := by
        by_contra hne
        have := inv1.mp hne
        rw [hopen] at this
        simp [claimedLike] at this
      have hsub : b.submissions = [] := by
        by_contra hne
        have := inv2.mp hne
        rw [hopen] at this
        simp [submittedLike] at this
      refine ⟨?_, ?_, ?_⟩
      · simp [hcb, claimedLike]
      · simp [hsub, submittedLike]
      · intro c hc
        simp [hcb] at hc

/-! ### Claim C2: the lifecycle invariants under every operation sequence

The unrestricted claim fails: the submission delete handler has no status
guard, so the claimant of a bounty already queued for payment can splice
out the paid submission, leaving `submissions` empty in status
payment_pending.  The concrete chain below reaches that state from a fresh
creation through claim, submit and approve. -/

def c2b0 : Bounty :=
  createBounty "u1" "t" "d" 1000000 [] (some 1) (some []) "0xcc" 0

def c2b1 : Bounty := mergeClaim c2b0 "0xAA" 1000

def c2sub : Submission :=
  { id := "s1"
    content := "this is real work on the task"
    proof := none
    submittedAt := 100000
    editedAt := none
    autogradeScore := 100
    autogradeChecks := [{ req := "No specific requirements", met := true, reason := "" }] }

def c2b2 : Bounty :=
  { c2b1 with
    submissions := [c2sub]
    status := Status.submitted
    updatedAt := 100000 }

def c2env : ApproveEnv :=
  { now := 200000
    keyOk := false
    claimedByIsAddress := true
    walletKeyPresent := false
    treasuryBalance := 0
    transferOutcome := Except.error "no wallet" }

def c2b3 : Bounty :=
  { c2b2 with
    status := Status.payment_pending
    approvedAt := some 200000
    updatedAt := 200000
    pendingPayment := some { grossReward := 1000000, fee := 50000, netReward := 950000, recipient := "0xaa" } }

def c2b4 : Bounty :=
  { c2b3 with
    submissions := []
    updatedAt := 300000 }

/-- C2, counterexample: the bounty c2b4 is reachable from a fresh creation
by claim, submit, approve and deleteSubmission, yet its submissions list
is empty while its status is payment_pending, so the submissions
invariant fails. -/
theorem c2_counterexample : Reachable c2b4 ∧ ¬ Inv c2b4 := by
  constructor
  · have h0 : Reachable c2b0 :=
      Reachable.created "u1" "t" "d" 1000000 [] (some 1) (some []) "0xcc" 0
    have h1 : Reachable c2b1 :=
      h0.step (Step.claim [] "0xAA" emptyRT false 1000 (by decide))
    have h2 : Reachable c2b2 :=
      h1.step (Step.submit "0xAA" (some "this is real work on the task")
        none emptyRT 100000 "s1" 100 (by decide))
    have h3 : Reachable c2b3 :=
      h2.step (Step.approve none (some "sig") c2env (fun _ => none)
        (by decide))
    exact h3.step (Step.deleteSub "0xAA" "s1" 300000 (by decide))
  · intro h
    exact (h.2.1.mpr (Or.inr (Or.inl rfl))) rfl

/-- C2, amended: every handler sequence from a fresh creation preserves
the three invariants, provided a submission delete is never issued against
a bounty already in status payment_pending or completed; the code leaves
exactly that sequence unguarded. -/
theorem c2_invariants_amended {b : Bounty} (h : ReachableR b) : Inv b := by
  induction h with
  | created uuid title description reward tags deadline requirements creator
      now =>
      exact inv_created uuid title description reward tags deadline
        requirements creator now
  | step _ hs hguard ih => exact step_preserves_inv hs hguard ih

/-- C2, witness: the amended theorem applied to a freshly created bounty. -/
theorem c2_witness :
    Inv (createBounty "w1" "wt" "wd" 5000000 [] none none "0xcc" 0) :=
  c2_invariants_amended
    (ReachableR.created "w1" "wt" "wd" 5000000 [] none none "0xcc" 0)

/-! ### Claim C1: the lost-race conflict response -/

/-- C1: for a claim request on an existing bounty that passes every guard
but whose conditional update matches zero rows, the handler re-reads the
document: a re-read in status claimed yields the 409 conflict carrying the
winner identity (claimedBy) and claim time, while any other re-read
outcome yields the generic 400 not-open refusal. -/
theorem c1_lost_race_conflict (address : String) (rt : RateTable)
    (now : Nat) (v : ClaimViews) (b : Bounty)
    (ha : address ≠ "")
    (hrc : (checkRateLimit rt address "claim" now).1 = RateCheck.allowed)
    (hp : (pendingClaimsOf address v.all).length < MAX_PENDING_CLAIMS)
    (hpre : v.pre = some b)
    (hsd : ¬(strTruthy b.creator = true ∧ lc b.creator = lc address))
    (hac : atomicClaim true v.acRead v.acWrite address now = none) :
    (∀ current, v.reRead = some current → current.status = Status.claimed →
      (claimHandler address rt false now true v).result =
        ClaimResult.raceConflict current.claimedBy current.claimedAt) ∧
    (∀ current, v.reRead = some current → current.status ≠ Status.claimed →
      (claimHandler address rt false now true v).result =
        ClaimResult.notOpen) ∧
    (v.reRead = none →
      (claimHandler address rt false now true v).result =
        ClaimResult.notOpen) := by
  unfold claimHandler
  rw [if_neg ha]
  simp only [hrc, Bool.false_eq_true, if_false]
  rw [if_neg (by omega)]
  rw [hpre]
  simp only []
  rw [if_neg hsd, hac]
  refine ⟨?_, ?_, ?_⟩
  · intro current hre hcl
    rw [hre]
    simp [hcl]
  · intro current hre hcl
    rw [hre]
    simp [hcl]
  · intro hre
    rw [hre]

def c1b0 : Bounty :=
  createBounty "u2" "t2" "d2" 2000000 [] (some 1) (some []) "0xcc" 0

def c1winner : Bounty := mergeClaim c1b0 "0xBB" 500

def c1views : ClaimViews :=
  { all := [], pre := some c1b0, acRead := some c1b0,
    acWrite := some c1winner, reRead := some c1winner }

/-- C1, witness: a concrete lost race in which 0xBB committed between the
read and the conditional update; the loser receives the conflict carrying
the winner and its claim time. -/
theorem c1_witness :
    (claimHandler "0xAA" emptyRT false 1000 true c1views).result =
      ClaimResult.raceConflict (some "0xbb") (some 500) := by
  have h := (c1_lost_race_conflict "0xAA" emptyRT 1000 c1views c1b0
    (by decide) (by decide) (by decide) (by decide) (by decide)
    (by decide)).1 c1winner (by decide) (by decide)
  rw [h]
  decide

/-! ### Claim C4: the rate limiter -/

theorem checkRateLimit_no_entry (rt : RateTable) (address action : String)
    (now : Nat) (h : rt (lc address ++ ":" ++ action) = none)
    (hl : 0 < limitFor action) :
    checkRateLimit rt address action now =
      (RateCheck.allowed,
       fun k =>
         if k = lc address ++ ":" ++ action then
           some { count := 1, windowStart := now }
         else rt k) := by
  unfold checkRateLimit
  simp only [h]
  rw [if_neg (Nat.not_le.mpr hl)]

theorem checkRateLimit_expired (rt : RateTable) (address action : String)
    (now : Nat) (e : RateEntry)
    (h : rt (lc address ++ ":" ++ action) = some e)
    (hexp : now - e.windowStart > RATE_LIMIT_WINDOW_MS)
    (hl : 0 < limitFor action) :
    checkRateLimit rt address action now =
      (RateCheck.allowed,
       fun k =>
         if k = lc address ++ ":" ++ action then
           some { count := 1, windowStart := now }
         else rt k) := by
  unfold checkRateLimit
  simp only [h]
  rw [if_pos hexp]
  rw [if_neg (Nat.not_le.mpr hl)]

theorem checkRateLimit_reject (rt : RateTable) (address action : String)
    (now : Nat) (e : RateEntry)
    (h : rt (lc address ++ ":" ++ action) = some e)
    (hexp : ¬ now - e.windowStart > RATE_LIMIT_WINDOW_MS)
    (hcnt : e.count ≥ limitFor action) :
    checkRateLimit rt address action now =
      (RateCheck.limited
        ((e.windowStart + RATE_LIMIT_WINDOW_MS - now + 999) / 1000), rt) := by
  unfold checkRateLimit
  simp only [h]
  rw [if_neg hexp]
  rw [if_pos hcnt]

theorem checkRateLimit_count (rt : RateTable) (address action : String)
    (now : Nat) (e : RateEntry)
    (h : rt (lc address ++ ":" ++ action) = some e)
    (hexp : ¬ now - e.windowStart > RATE_LIMIT_WINDOW_MS)
    (hcnt : e.count < limitFor action) :
    checkRateLimit rt address action now =
      (RateCheck.allowed,
       fun k =>
         if k = lc address ++ ":" ++ action then
           some { count := e.count + 1, windowStart := e.windowStart }
         else rt k) := by
  unfold checkRateLimit
  simp only [h]
  rw [if_neg hexp]
  rw [if_neg (by omega)]

/-- Replays one client checking the limiter at the given instants,
threading the table exactly as the handlers do. -/
def runChecks (rt : RateTable) (address action : String) :
    List Nat → List RateCheck
  | [] => []
  | t :: ts =>
      let r := checkRateLimit rt address action t
      r.1 :: runChecks r.2 address action ts

/-- C4: the limiter resets an absent or expired window (an absent or
expired entry behaves as count zero with a fresh window, so the check is
admitted and stored as count one), rejects at the per-action limit with
the ceiling retry time leaving the table untouched, and increments and
accepts otherwise; consequently a fresh identity gets three claims inside
one window, a fourth strictly inside the window is rejected with a
positive retryAfter, and a check after the window expires succeeds
again. -/
theorem c4_rate_limiter (address : String) (t0 t1 t2 t3 t4 : Nat)
    (h01 : t0 ≤ t1) (h02 : t1 ≤ t2) (h03 : t2 ≤ t3)
    (hw1 : t1 - t0 ≤ RATE_LIMIT_WINDOW_MS)
    (hw2 : t2 - t0 ≤ RATE_LIMIT_WINDOW_MS)
    (hw3 : t3 - t0 < RATE_LIMIT_WINDOW_MS)
    (hw4 : t4 - t0 > RATE_LIMIT_WINDOW_MS) :
    (∀ (rt : RateTable) (a act : String) (n : Nat),
      rt (lc a ++ ":" ++ act) = none → 0 < limitFor act →
      checkRateLimit rt a act n =
        (RateCheck.allowed,
         fun k => if k = lc a ++ ":" ++ act then
           some { count := 1, windowStart := n } else rt k)) ∧
    (∀ (rt : RateTable) (a act : String) (n : Nat) (e : RateEntry),
      rt (lc a ++ ":" ++ act) = some e →
      n - e.windowStart > RATE_LIMIT_WINDOW_MS → 0 < limitFor act →
      checkRateLimit rt a act n =
        (RateCheck.allowed,
         fun k => if k = lc a ++ ":" ++ act then
           some { count := 1, windowStart := n } else rt k)) ∧
    (∀ (rt : RateTable) (a act : String) (n : Nat) (e : RateEntry),
      rt (lc a ++ ":" ++ act) = some e →
      ¬ n - e.windowStart > RATE_LIMIT_WINDOW_MS →
      e.count ≥ limitFor act →
      checkRateLimit rt a act n =
        (RateCheck.limited
          ((e.windowStart + RATE_LIMIT_WINDOW_MS - n + 999) / 1000), rt)) ∧
    (∀ (rt : RateTable) (a act : String) (n : Nat) (e : RateEntry),
      rt (lc a ++ ":" ++ act) = some e →
      ¬ n - e.windowStart > RATE_LIMIT_WINDOW_MS →
      e.count < limitFor act →
      checkRateLimit rt a act n =
        (RateCheck.allowed,
         fun k => if k = lc a ++ ":" ++ act then
           some { count := e.count + 1, windowStart := e.windowStart }
         else rt k)) ∧
    runChecks emptyRT address "claim" [t0, t1, t2, t3, t4] =
      [RateCheck.allowed, RateCheck.allowed, RateCheck.allowed,
       RateCheck.limited
         ((t0 + RATE_LIMIT_WINDOW_MS - t3 + 999) / 1000),
       RateCheck.allowed] ∧
    1 ≤ (t0 + RATE_LIMIT_WINDOW_MS - t3 + 999) / 1000 := by
  refine ⟨fun rt a act n h hl => checkRateLimit_no_entry rt a act n h hl,
    fun rt a act n e h hexp hl => checkRateLimit_expired rt a act n e h hexp hl,
    fun rt a act n e h hexp hc => checkRateLimit_reject rt a act n e h hexp hc,
    fun rt a act n e h hexp hc => checkRateLimit_count rt a act n e h hexp hc,
    ?_, ?_⟩
  · have e1 := checkRateLimit_no_entry emptyRT address "claim" t0
      rfl (by decide)
    simp only [runChecks, e1]
    have e2 := checkRateLimit_count
      (fun k =>
        if k = lc address ++ ":" ++ "claim" then
          some { count := 1, windowStart := t0 }
        else emptyRT k)
      address "claim" t1 { count := 1, windowStart := t0 }
      (by simp) (by show ¬ t1 - t0 > RATE_LIMIT_WINDOW_MS; omega)
      (by show (1 : Nat) < limitFor "claim"; decide)
    simp only [e2]
    have e3 := checkRateLimit_count
      (fun k =>
        if k = lc address ++ ":" ++ "claim" then
          some { count := 2, windowStart := t0 }
        else
          if k = lc address ++ ":" ++ "claim" then
            some { count := 1, windowStart := t0 }
          else emptyRT k)
      address "claim" t2 { count := 2, windowStart := t0 }
      (by simp) (by show ¬ t2 - t0 > RATE_LIMIT_WINDOW_MS; omega)
      (by show (2 : Nat) < limitFor "claim"; decide)
    simp only [e3]
    have e4 := checkRateLimit_reject
      (fun k =>
        if k = lc address ++ ":" ++ "claim" then
          some { count := 3, windowStart := t0 }
        else
          if k = lc address ++ ":" ++ "claim" then
            some { count := 2, windowStart := t0 }
          else
            if k = lc address ++ ":" ++ "claim" then
              some { count := 1, windowStart := t0 }
            else emptyRT k)
      address "claim" t3 { count := 3, windowStart := t0 }
      (by simp) (by show ¬ t3 - t0 > RATE_LIMIT_WINDOW_MS; omega)
      (by show limitFor "claim" ≤ 3; decide)
    simp only [e4]
    have e5 := checkRateLimit_expired
      (fun k =>
        if k = lc address ++ ":" ++ "claim" then
          some { count := 3, windowStart := t0 }
        else
          if k = lc address ++ ":" ++ "claim" then
            some { count := 2, windowStart := t0 }
          else
            if k = lc address ++ ":" ++ "claim" then
              some { count := 1, windowStart := t0 }
            else emptyRT k)
      address "claim" t4 { count := 3, windowStart := t0 }
      (by simp) (by show t4 - t0 > RATE_LIMIT_WINDOW_MS; omega)
      (by decide)
    simp only [e5, runChecks]
  · have hx : 1 ≤ t0 + RATE_LIMIT_WINDOW_MS - t3 := by
      unfold RATE_LIMIT_WINDOW_MS at hw3 ⊢
      omega
    calc (1 : Nat) = 1000 / 1000 := by decide
      _ ≤ (t0 + RATE_LIMIT_WINDOW_MS - t3 + 999) / 1000 :=
          Nat.div_le_div_right (by omega)

/-- C4, witness: three claims at seconds 0, 10 and 20, a fourth at second
30 rejected with a 30 second retry, and a fresh claim at 61 seconds. -/
theorem c4_witness :
    runChecks emptyRT "0xAA" "claim" [0, 10000, 20000, 30000, 61000] =
      [RateCheck.allowed, RateCheck.allowed, RateCheck.allowed,
       RateCheck.limited 30, RateCheck.allowed] ∧
    1 ≤ (30 : Nat) := by
  have h := c4_rate_limiter "0xAA" 0 10000 20000 30000 61000
    (by decide) (by decide) (by decide) (by decide) (by decide) (by decide)
    (by decide)
  have hv : (0 + RATE_LIMIT_WINDOW_MS - 30000 + 999) / 1000 = 30 := by decide
  rw [hv] at h
  exact ⟨h.2.2.2.2.1, by decide⟩

/-! ### Claim C5: the pending-claim admission ceiling -/

/-- C5: a claim request by an identity holding at least the ceiling of
bounties in status exactly claimed is refused with the offending bounty
ids before any store write; and once a submit success moves one of the
held bounties to submitted, the scan counts strictly below the ceiling, so
the admission check no longer refuses the request. -/
theorem c5_pending_ceiling (address : String) (rt : RateTable) (now : Nat)
    (db : Bool) (v : ClaimViews)
    (ha : address ≠ "")
    (hrc : (checkRateLimit rt address "claim" now).1 = RateCheck.allowed) :
    ((pendingClaimsOf address v.all).length ≥ MAX_PENDING_CLAIMS →
      (claimHandler address rt false now db v).result =
        ClaimResult.pendingLimit
          ((pendingClaimsOf address v.all).map fun b => b.id) ∧
      (claimHandler address rt false now db v).written = none) ∧
    (∀ (l1 l2 : List Bounty) (p p' : Bounty) (submission proof : Option String)
        (rt2 : RateTable) (now2 : Nat) (subId : String) (score : Nat),
      p.status = Status.claimed →
      (pendingClaimsOf address (l1 ++ p :: l2)).length = MAX_PENDING_CLAIMS →
      (submitHandler (some p) address submission proof rt2 now2 subId).1 =
        SubmitResult.ok p' score →
      (pendingClaimsOf address (l1 ++ p' :: l2)).length <
        MAX_PENDING_CLAIMS ∧
      ∀ ids, (claimHandler address rt false now db
        { v with all := l1 ++ p' :: l2 }).result ≠
          ClaimResult.pendingLimit ids) := by
  constructor
  · intro hp
    unfold claimHandler
    rw [if_neg ha]
    simp only [hrc, Bool.false_eq_true, if_false]
    rw [if_pos hp]
    exact ⟨rfl, rfl⟩
  · intro l1 l2 p p' submission proof rt2 now2 subId score hpst hceil hsub
    obtain ⟨hcb, sub, hp'⟩ := submit_ok hsub
    subst hp'
    have hlen : (pendingClaimsOf address
          (l1 ++ { p with
            submissions := p.submissions ++ [sub]
            status := Status.submitted
            updatedAt := now2 } :: l2)).length + 1 =
        (pendingClaimsOf address (l1 ++ p :: l2)).length := by
      simp [pendingClaimsOf, List.filter_append, List.filter_cons, hcb,
        hpst, lc_lc]
      omega
    refine ⟨by omega, ?_⟩
    intro ids
    unfold claimHandler
    rw [if_neg ha]
    simp only [hrc, Bool.false_eq_true, if_false]
    rw [if_neg (by
      show ¬ (pendingClaimsOf address (l1 ++ _ :: l2)).length ≥
        MAX_PENDING_CLAIMS
      omega)]
    rcases v.pre with _ | bb
    · simp
    · simp only []
      split
      · simp
      · rcases atomicClaim db v.acRead v.acWrite address now with _ | c
        · rcases v.reRead with _ | cur
          · simp
          · simp only []
            split <;> simp
        · simp

def c5addr : String := "0xAA"

def c5pending (i : String) : Bounty :=
  { createBounty i "t" "d" 1000000 [] (some 1) (some []) "0xcc" 0 with
    status := Status.claimed
    claimedBy := some "0xaa"
    claimedAt := some 10 }

def c5all : List Bounty := [c5pending "p1", c5pending "p2", c5pending "p3"]

def c5views : ClaimViews :=
  { all := c5all, pre := none, acRead := none, acWrite := none,
    reRead := none }

/-- C5, witness: a wallet holding three claimed bounties is refused with
the three offending ids and nothing is written. -/
theorem c5_witness :
    (claimHandler c5addr emptyRT false 99 true c5views).result =
      ClaimResult.pendingLimit ["p1", "p2", "p3"] ∧
    (claimHandler c5addr emptyRT false 99 true c5views).written = none := by
  have h := (c5_pending_ceiling c5addr emptyRT 99 true c5views
    (by decide) (by decide)).1 (by decide)
  have hids : ((pendingClaimsOf c5addr c5views.all).map fun b => b.id) =
      ["p1", "p2", "p3"] := by decide
  rw [hids] at h
  exact h

/-! ### Full outcome inversion for the approve handler -/

/-- Every approve run over an existing document either refuses, leaving
the document and the agents untouched, or queues the relay payment, or
completes after a successful transfer; the two success outcomes record
the 5 percent fee split over the gross reward. -/
theorem approve_inv (b : Bounty) (modWallet creatorSignature : Option String)
    (env : ApproveEnv) (agents : AgentsMap) (out : ApproveOut)
    (hout : approveHandler (some b) modWallet creatorSignature env agents =
      out) :
    (out.bounty = some b ∧ out.agents = agents ∧
      (∀ tx, out.result ≠ ApproveResult.paid tx) ∧
      out.result ≠ ApproveResult.queuedPending) ∨
    (out.result = ApproveResult.queuedPending ∧ out.agents = agents ∧
      b.status = Status.submitted ∧ env.walletKeyPresent = false ∧
      out.bounty = some { b with
        status := Status.payment_pending
        approvedAt := some env.now
        updatedAt := env.now
        pendingPayment := some
          { grossReward := b.reward
            fee := b.reward * FEE_PERCENT / 100
            netReward := b.reward - b.reward * FEE_PERCENT / 100
            recipient := b.claimedBy.getD "" } }) ∨
    (∃ tx,
      out.result = ApproveResult.paid tx ∧
      env.transferOutcome = Except.ok tx ∧
      env.walletKeyPresent = true ∧ b.status = Status.submitted ∧
      env.treasuryBalance ≥ b.reward - b.reward * FEE_PERCENT / 100 ∧
      out.bounty = some { b with
        status := Status.completed
        completedAt := some env.now
        updatedAt := env.now
        payment := some
          { grossReward := b.reward
            fee := b.reward * FEE_PERCENT / 100
            netReward := b.reward - b.reward * FEE_PERCENT / 100
            txHash := tx } }) := by
  unfold approveHandler at hout
  dsimp only at hout
  split at hout
  next hst =>
    rw [← hout]
    exact Or.inl ⟨rfl, rfl, by simp, by simp⟩
  next hst =>
    split at hout
    · rw [← hout]
      exact Or.inl ⟨rfl, rfl, by simp, by simp⟩
    · split at hout
      · rw [← hout]
        exact Or.inl ⟨rfl, rfl, by simp, by simp⟩
      · split at hout
        next err heq =>
          rw [← hout]
          have herr : err ≠ ApproveResult.queuedPending ∧
              ∀ tx, err ≠ ApproveResult.paid tx := by
            repeat' split at heq
            all_goals try simp_all
            all_goals (rw [← heq]; exact ⟨by simp, by simp⟩)
          exact Or.inl ⟨rfl, rfl, herr.2, herr.1⟩
        next heq =>
          split at hout
          · rw [← hout]
            exact Or.inl ⟨rfl, rfl, by simp, by simp⟩
          · split at hout
            next hwk =>
              rw [← hout]
              exact Or.inr (Or.inl ⟨rfl, rfl, not_not.mp hst,
                by simpa using hwk, rfl⟩)
            next hwk =>
              split at hout
              · rw [← hout]
                exact Or.inl ⟨rfl, rfl, by simp, by simp⟩
              · split at hout
                next msg heq =>
                  rw [← hout]
                  exact Or.inl ⟨rfl, rfl, by simp, by simp⟩
                next tx heq =>
                  rw [← hout]
                  refine Or.inr (Or.inr ⟨tx, rfl, heq, ?_, not_not.mp hst,
                    by omega, rfl⟩)
                  simpa using hwk

/-! ### Claim C3: failed synchronous payment leaves the bounty untouched -/

/-- C3: with a treasury wallet key configured, an approve run on a
submitted bounty whose payment step fails (insufficient treasury balance
or a thrown transfer) returns that error and leaves the persisted bounty
document (hence its submitted status and absent payment record) and the
agents reputation map exactly as they were; and the handler reports paid,
or persists a completed document, only when the transfer outcome is a
success. -/
theorem c3_payment_failure_no_state_change (b : Bounty)
    (modWallet creatorSignature : Option String) (env : ApproveEnv)
    (agents : AgentsMap) (hst : b.status = Status.submitted) :
    (∀ a n,
      (approveHandler (some b) modWallet creatorSignature env agents).result =
        ApproveResult.insufficientTreasury a n →
      (approveHandler (some b) modWallet creatorSignature env agents).bounty =
        some b ∧
      (approveHandler (some b) modWallet creatorSignature env agents).agents =
        agents) ∧
    (∀ msg,
      (approveHandler (some b) modWallet creatorSignature env agents).result =
        ApproveResult.transferFailed msg →
      (approveHandler (some b) modWallet creatorSignature env agents).bounty =
        some b ∧
      (approveHandler (some b) modWallet creatorSignature env agents).agents =
        agents) ∧
    (∀ tx,
      (approveHandler (some b) modWallet creatorSignature env agents).result =
        ApproveResult.paid tx →
      env.transferOutcome = Except.ok tx) ∧
    (∀ b',
      (approveHandler (some b) modWallet creatorSignature env agents).bounty =
        some b' →
      b'.status = Status.completed →
      ∃ tx, env.transferOutcome = Except.ok tx ∧
        (approveHandler (some b) modWallet creatorSignature env agents).result =
          ApproveResult.paid tx) := by
  rcases approve_inv b modWallet creatorSignature env agents _ rfl with
    ⟨hb, hag, hnp, hnq⟩ | ⟨hr, hag, _, _, hb⟩ | ⟨tx, hr, hok, _, _, _, hb⟩
  · refine ⟨fun a n _ => ⟨hb, hag⟩, fun msg _ => ⟨hb, hag⟩,
      fun tx hrr => absurd hrr (hnp tx), ?_⟩
    intro b' hb' hcomp
    rw [hb] at hb'
    injection hb' with hb'
    rw [← hb'] at hcomp
    rw [hst] at hcomp
    exact absurd hcomp (by simp)
  · refine ⟨?_, ?_, ?_, ?_⟩
    · intro a n hrr
      rw [hr] at hrr
      simp at hrr
    · intro msg hrr
      rw [hr] at hrr
      simp at hrr
    · intro tx hrr
      rw [hr] at hrr
      simp at hrr
    · intro b' hb' hcomp
      rw [hb] at hb'
      injection hb' with hb'
      rw [← hb'] at hcomp
      simp at hcomp
  · refine ⟨?_, ?_, ?_, ?_⟩
    · intro a n hrr
      rw [hr] at hrr
      simp at hrr
    · intro msg hrr
      rw [hr] at hrr
      simp at hrr
    · intro tx' hrr
      rw [hr] at hrr
      injection hrr with hrr
      rw [← hrr]
      exact hok
    · intro b' _ _
      exact ⟨tx, hok, hr⟩

/-- A submitted bounty with a valid claimant and a validation-passing last
submission, shared by the approve-path witnesses. -/
def exSubmitted : Bounty :=
  { createBounty "u3" "t3" "d3" 1000000 [] (some 1) (some []) "0xcc" 0 with
    status := Status.submitted
    claimedBy := some "0xaa"
    claimedAt := some 1000
    submissions := [{ id := "s1"
                      content := "this is real work on the task"
                      proof := none
                      submittedAt := 100000
                      editedAt := none
                      autogradeScore := 100
                      autogradeChecks := [] }] }

def c3env : ApproveEnv :=
  { now := 200000
    keyOk := true
    claimedByIsAddress := true
    walletKeyPresent := true
    treasuryBalance := 0
    transferOutcome := Except.error "boom" }

/-- C3, witness: the empty treasury refuses the transfer and the persisted
bounty and agents map are exactly the inputs. -/
theorem c3_witness :
    (approveHandler (some exSubmitted) none none c3env emptyAgents).bounty =
      some exSubmitted ∧
    (approveHandler (some exSubmitted) none none c3env emptyAgents).agents =
      emptyAgents :=
  (c3_payment_failure_no_state_change exSubmitted none none c3env
    emptyAgents (by decide)).1 0 950000 (by decide)

/-! ### Claim C7: the conflict-of-interest check -/

/-- The conflict-of-interest refusal fires only for a request that carries
a nonempty mod wallet equal, lowercased, to the claimant. -/
theorem approve_conflict_requires_mod (b : Bounty)
    (modWallet creatorSignature : Option String) (env : ApproveEnv)
    (agents : AgentsMap) (out : ApproveOut)
    (hout : approveHandler (some b) modWallet creatorSignature env agents =
      out)
    (h : out.result = ApproveResult.conflictOfInterest) :
    otv modWallet = true ∧ otv b.claimedBy = true ∧
      lc (modWallet.getD "") = lc (b.claimedBy.getD "") := by
  unfold approveHandler at hout
  dsimp only at hout
  split at hout
  · rw [← hout] at h
    simp at h
  · split at hout
    · rw [← hout] at h
      simp at h
    · split at hout
      next hcond =>
        exact hcond
      next hcond =>
        split at hout
        next err heq =>
          rw [← hout] at h
          dsimp only at h
          subst h
          revert heq
          repeat' split
          all_goals simp
        next heq =>
          split at hout
          · rw [← hout] at h
            simp at h
          · split at hout
            · rw [← hout] at h
              simp at h
            · split at hout
              · rw [← hout] at h
                simp at h
              · split at hout
                · rw [← hout] at h
                  simp at h
                · rw [← hout] at h
                  simp at h

def c7env : ApproveEnv :=
  { now := 200000
    keyOk := false
    claimedByIsAddress := true
    walletKeyPresent := false
    treasuryBalance := 0
    transferOutcome := Except.error "unused" }

/-- C7, counterexample: an approve request that carries no mod wallet and
an arbitrary unverified creator signature — in particular one sent by the
claimant 0xaa approving the own submission — is not rejected for conflict
of interest; it goes through and queues the payment. -/
theorem c7_counterexample :
    (approveHandler (some exSubmitted) none (some "sig by 0xaa") c7env
      emptyAgents).result = ApproveResult.queuedPending ∧
    (approveHandler (some exSubmitted) none (some "sig by 0xaa") c7env
      emptyAgents).result ≠ ApproveResult.conflictOfInterest := by
  constructor
  · decide
  · decide

/-- C7, amended: the conflict-of-interest rejection applies exactly to the
mod-wallet authentication path: when the request carries a nonempty
modWallet that equals the claimant case-insensitively (and clears the
authentication gate), the approve run on a submitted bounty returns the
conflict error leaving the bounty and agents untouched; a request without
a mod wallet is never rejected for conflict of interest, so the internal
key and the (unverified) creator signature paths are not subject to the
check. -/
theorem c7_conflict_of_interest (b : Bounty) (w c : String)
    (creatorSignature : Option String) (env : ApproveEnv)
    (agents : AgentsMap)
    (hst : b.status = Status.submitted)
    (hw : w ≠ "")
    (hcb : b.claimedBy = some c) (hcne : c ≠ "")
    (hlcw : lc w = lc c)
    (hauth : env.keyOk = true ∨ isMod w = true ∨ otv creatorSignature = true) :
    (approveHandler (some b) (some w) creatorSignature env agents).result =
      ApproveResult.conflictOfInterest ∧
    (approveHandler (some b) (some w) creatorSignature env agents).bounty =
      some b ∧
    (approveHandler (some b) (some w) creatorSignature env agents).agents =
      agents ∧
    (∀ cs' : Option String,
      (approveHandler (some b) none cs' env agents).result ≠
        ApproveResult.conflictOfInterest) := by
  have hmain : (approveHandler (some b) (some w) creatorSignature env
      agents) =
      { result := ApproveResult.conflictOfInterest, bounty := some b,
        agents := agents } := by
    unfold approveHandler
    dsimp only
    rw [if_neg (by rw [hst]; simp)]
    rw [if_neg ?hauth]
    case hauth =>
      intro ⟨h1, h2, h3⟩
      rcases hauth with h | h | h
      · exact h1 h
      · apply h2
        simp only [otv, strTruthy, Option.getD]
        rw [h]
        simp [hw]
      · exact h3 h
    rw [if_pos ?hcond]
    case hcond =>
      refine ⟨by simp [otv, strTruthy, hw], ?_, ?_⟩
      · rw [hcb]
        simp [otv, strTruthy, hcne]
      · rw [hcb]
        simpa using hlcw
  refine ⟨by rw [hmain], by rw [hmain], by rw [hmain], ?_⟩
  intro cs' hres
  have hm := (approve_conflict_requires_mod b none cs' env agents _ rfl
    hres).1
  simp [otv] at hm

/-- C7, witness: the mod wallet equal to the claimant is refused for
conflict of interest on a concrete submitted bounty. -/
theorem c7_witness :
    (approveHandler (some exSubmitted) (some "0xAA") none c3env
      emptyAgents).result = ApproveResult.conflictOfInterest :=
  (c7_conflict_of_interest exSubmitted "0xAA" "0xaa" none c3env emptyAgents
    (by decide) (by decide) (by decide) (by decide) (by decide)
    (Or.inl (by decide))).1

/-! ### Claim C10: the 5 percent fee split -/

theorem fee_le (g : Nat) : g * FEE_PERCENT / 100 ≤ g := by
  calc g * FEE_PERCENT / 100 ≤ g * 100 / 100 :=
        Nat.div_le_div_right (Nat.mul_le_mul_left g (by decide))
    _ = g := Nat.mul_div_cancel g (by decide)

/-- C10: every successful approval, on the payment-pending path through
`pendingPayment` and on the synchronous-payment path through `payment`,
records fee = floor(gross times 5 / 100) and net = gross - fee over the
gross reward, so fee + net = gross and fee is at most gross. -/
theorem c10_fee_split (b : Bounty) (modWallet creatorSignature : Option String)
    (env : ApproveEnv) (agents : AgentsMap) :
    (∀ b',
      (approveHandler (some b) modWallet creatorSignature env agents).result =
        ApproveResult.queuedPending →
      (approveHandler (some b) modWallet creatorSignature env agents).bounty =
        some b' →
      ∃ p, b'.pendingPayment = some p ∧ p.grossReward = b.reward ∧
        p.fee = b.reward * 5 / 100 ∧ p.netReward = b.reward - p.fee ∧
        p.fee + p.netReward = b.reward ∧ p.fee ≤ b.reward) ∧
    (∀ b' tx,
      (approveHandler (some b) modWallet creatorSignature env agents).result =
        ApproveResult.paid tx →
      (approveHandler (some b) modWallet creatorSignature env agents).bounty =
        some b' →
      ∃ p, b'.payment = some p ∧ p.grossReward = b.reward ∧
        p.fee = b.reward * 5 / 100 ∧ p.netReward = b.reward - p.fee ∧
        p.fee + p.netReward = b.reward ∧ p.fee ≤ b.reward) := by
  have hle := fee_le b.reward
  have hsplit : b.reward * FEE_PERCENT / 100 +
      (b.reward - b.reward * FEE_PERCENT / 100) = b.reward :=
    Nat.add_sub_cancel' hle
  rcases approve_inv b modWallet creatorSignature env agents _ rfl with
    ⟨hb, hag, hnp, hnq⟩ | ⟨hr, hag, _, _, hb⟩ | ⟨tx, hr, hok, _, _, _, hb⟩
  · refine ⟨fun b' hrr => absurd hrr hnq, fun b' tx hrr => absurd hrr (hnp tx)⟩
  · refine ⟨?_, ?_⟩
    · intro b' _ hb'
      rw [hb] at hb'
      injection hb' with hb'
      refine ⟨_, by rw [← hb'], rfl, rfl, rfl, hsplit, hle⟩
    · intro b' tx' hrr
      rw [hr] at hrr
      simp at hrr
  · refine ⟨?_, ?_⟩
    · intro b' hrr
      rw [hr] at hrr
      simp at hrr
    · intro b' tx' _ hb'
      rw [hb] at hb'
      injection hb' with hb'
      refine ⟨_, by rw [← hb'], rfl, rfl, rfl, hsplit, hle⟩

def c10env : ApproveEnv :=
  { now := 200000
    keyOk := true
    claimedByIsAddress := true
    walletKeyPresent := true
    treasuryBalance := 10000000
    transferOutcome := Except.ok "0xtx" }

/-- C10, witness: the synchronous payment of the 1 USDC bounty records a
50000 unit fee and a 950000 unit net reward. -/
theorem c10_witness :
    ∃ p, ((approveHandler (some exSubmitted) none none c10env
        emptyAgents).bounty.getD exSubmitted).payment = some p ∧
      p.grossReward = exSubmitted.reward ∧
      p.fee = exSubmitted.reward * 5 / 100 ∧
      p.netReward = exSubmitted.reward - p.fee ∧
      p.fee + p.netReward = exSubmitted.reward ∧
      p.fee ≤ exSubmitted.reward := by
  obtain ⟨p, hp, h⟩ := (c10_fee_split exSubmitted none none c10env
    emptyAgents).2
    { exSubmitted with
      status := Status.completed
      completedAt := some 200000
      updatedAt := 200000
      payment := some { grossReward := 1000000, fee := 50000, netReward := 950000, txHash := "0xtx" } }
    "0xtx" (by decide) (by decide)
  refine ⟨p, ?_, h⟩
  rw [show ((approveHandler (some exSubmitted) none none c10env
      emptyAgents).bounty.getD exSubmitted) =
    { exSubmitted with
      status := Status.completed
      completedAt := some 200000
      updatedAt := 200000
      payment := some { grossReward := 1000000, fee := 50000, netReward := 950000, txHash := "0xtx" } }
    from by decide]
  exact hp

/-! ### Claim C6: autograder aggregation and boundaries -/

def c6bounty : Bounty :=
  createBounty "u6" "t6" "d6" 1000000 [] (some 1)
    (some ["provide url", "mention github"]) "0xcc" 0

/-- C6: the autograder scores round(100 times metCount over total) with
the 90 threshold for passing; zero requirements grade score 100 and pass;
and the two-requirement bounty above, of which the submission meets
exactly the github one, grades 50 and fails. -/
theorem c6_autograde (b : Bounty) (submission proof : String) :
    (b.requirements = [] →
      autograde b submission proof =
        { score := 100, passed := true,
          checks := [{ req := "No specific requirements", met := true, reason := "" }] }) ∧
    (b.requirements ≠ [] →
      (autograde b submission proof).checks.length =
        b.requirements.length ∧
      (autograde b submission proof).score =
        roundPercent
          ((autograde b submission proof).checks.filter
            fun c => c.met).length
          (autograde b submission proof).checks.length ∧
      ((autograde b submission proof).passed = true ↔
        90 ≤ (autograde b submission proof).score)) ∧
    ((autograde c6bounty "github.com result" "").checks.length = 2 ∧
      ((autograde c6bounty "github.com result" "").checks.filter
        fun c => c.met).length = 1 ∧
      (autograde c6bounty "github.com result" "").score = 50 ∧
      (autograde c6bounty "github.com result" "").passed = false) := by
  refine ⟨?_, ?_, by decide⟩
  · intro hreq
    unfold autograde
    rw [hreq]
    rfl
  · intro hreq
    have hlen : b.requirements.length ≠ 0 := by
      intro h0
      exact hreq (List.length_eq_zero.mp h0)
    unfold autograde
    rw [if_neg hlen]
    refine ⟨by simp, rfl, ?_⟩
    exact decide_eq_true_iff

/-- C6, witness: the general aggregation clause applied to the concrete
two-requirement bounty. -/
theorem c6_witness :
    (autograde c6bounty "github.com result" "").checks.length =
      c6bounty.requirements.length ∧
    (autograde c6bounty "github.com result" "").score =
      roundPercent
        ((autograde c6bounty "github.com result" "").checks.filter
          fun c => c.met).length
        (autograde c6bounty "github.com result" "").checks.length ∧
    ((autograde c6bounty "github.com result" "").passed = true ↔
      90 ≤ (autograde c6bounty "github.com result" "").score) :=
  (c6_autograde c6bounty "github.com result" "").2.1 (by decide)

/-! ### Claim C8: the reject and release round trips -/

/-- C8: on a submitted (or claimed) bounty a successful reject resets the
document to open with the claim fields cleared and submissions emptied,
stamps updatedAt and appends exactly one rejection record carrying the
previous claimant and submissions; a successful release does the same with
one release record carrying the previous status and submissions; and on
either reset document a subsequent claim request by an identity passing
the guards succeeds. -/
theorem c8_reject_release_roundtrip (b : Bounty) (reason : Option String)
    (keyOk : Bool) (now : Nat) (address : String) (now2 : Nat)
    (b1 b2 : Bounty)
    (hrej : rejectHandler (some b) reason keyOk now = RejectResult.ok b1)
    (hrel : releaseHandler (some b) address now2 = ReleaseResult.ok b2) :
    (b1.status = Status.open_ ∧ b1.claimedBy = none ∧ b1.claimedAt = none ∧
      b1.submissions = [] ∧ b1.updatedAt = now ∧
      b1.rejections = b.rejections ++
        [{ rejectedAt := now
           reason :=
             if otv reason then reason.getD ""
             else "Submission did not meet requirements"
           previousClaimant := b.claimedBy
           previousSubmissions := b.submissions }] ∧
      b1.releases = b.releases) ∧
    (b2.status = Status.open_ ∧ b2.claimedBy = none ∧ b2.claimedAt = none ∧
      b2.submissions = [] ∧ b2.updatedAt = now2 ∧
      b2.releases = b.releases ++
        [{ releasedAt := now2
           releasedBy := lc address
           previousStatus := b.status
           submissions := b.submissions }] ∧
      b2.rejections = b.rejections) ∧
    (∀ (addr2 : String) (all : List Bounty) (rt : RateTable) (t : Nat),
      addr2 ≠ "" →
      (checkRateLimit rt addr2 "claim" t).1 = RateCheck.allowed →
      (pendingClaimsOf addr2 all).length < MAX_PENDING_CLAIMS →
      ¬(strTruthy b.creator = true ∧ lc b.creator = lc addr2) →
      (claimSeq b1 all addr2 rt false t).result =
        ClaimResult.success (mergeClaim b1 addr2 t) ∧
      (claimSeq b2 all addr2 rt false t).result =
        ClaimResult.success (mergeClaim b2 addr2 t)) := by
  obtain ⟨hstr, hb1⟩ := reject_ok hrej
  obtain ⟨hstl, hb2⟩ := release_ok hrel
  subst hb1
  subst hb2
  refine ⟨⟨rfl, rfl, rfl, rfl, rfl, rfl, rfl⟩,
    ⟨rfl, rfl, rfl, rfl, rfl, rfl, rfl⟩, ?_⟩
  intro addr2 all rt t ha hrc hp hsd
  constructor
  · exact claimSeq_success ha hrc rfl hp hsd rfl
  · exact claimSeq_success ha hrc rfl hp hsd rfl

def c8reset : Bounty :=
  { exSubmitted with
    rejections := [{ rejectedAt := 500000
                     reason := "Submission did not meet requirements"
                     previousClaimant := some "0xaa"
                     previousSubmissions := exSubmitted.submissions }]
    status := Status.open_
    claimedBy := none
    claimedAt := none
    submissions := []
    updatedAt := 500000 }

def c8released : Bounty :=
  { exSubmitted with
    releases := [{ releasedAt := 600000
                   releasedBy := "0xaa"
                   previousStatus := Status.submitted
                   submissions := exSubmitted.submissions }]
    status := Status.open_
    claimedBy := none
    claimedAt := none
    submissions := []
    updatedAt := 600000 }

/-- C8, witness: rejecting and releasing the concrete submitted bounty
reset it as described, and a fresh identity 0xBB then claims either reset
document. -/
theorem c8_witness :
    (claimSeq c8reset [] "0xBB" emptyRT false 700000).result =
      ClaimResult.success (mergeClaim c8reset "0xBB" 700000) ∧
    (claimSeq c8released [] "0xBB" emptyRT false 700000).result =
      ClaimResult.success (mergeClaim c8released "0xBB" 700000) :=
  (c8_reject_release_roundtrip exSubmitted none true 500000 "0xAA" 600000
    c8reset c8released (by decide) (by decide)).2.2
    "0xBB" [] emptyRT 700000 (by decide) (by decide) (by decide) (by decide)

/-! ### Claim C9: deleting the last submission reverts to claimed -/

/-- C9: a successful submission delete on a submitted bounty leaves
claimedBy and claimedAt untouched; with no submission remaining the status
reverts to claimed, and with one remaining it stays submitted. -/
theorem c9_delete_last_submission {b b' : Bounty} (address subId : String)
    (now : Nat)
    (hst : b.status = Status.submitted)
    (h : deleteSubmissionHandler (some b) address subId now =
      DeleteSubResult.ok b') :
    b'.claimedBy = b.claimedBy ∧ b'.claimedAt = b.claimedAt ∧
    (b'.submissions = [] → b'.status = Status.claimed) ∧
    (b'.submissions ≠ [] → b'.status = Status.submitted) := by
  obtain ⟨hcb, idx, hidx, hb'⟩ := delete_ok h
  subst hb'
  refine ⟨rfl, rfl, ?_, ?_⟩
  · intro hnil
    dsimp only at hnil ⊢
    rw [if_pos ⟨by rw [hnil]; rfl, hst⟩]
  · intro hne
    dsimp only at hne ⊢
    rw [if_neg fun hcond => hne (List.length_eq_zero.mp hcond.1)]
    exact hst

/-- C9, witness: deleting the only submission of the concrete submitted
bounty keeps the claimant and reverts the status to claimed. -/
theorem c9_witness :
    ({ exSubmitted with
        submissions := []
        status := Status.claimed
        updatedAt := 400000 } : Bounty).claimedBy =
      exSubmitted.claimedBy ∧
    ({ exSubmitted with
        submissions := []
        status := Status.claimed
        updatedAt := 400000 } : Bounty).claimedAt =
      exSubmitted.claimedAt ∧
    (({ exSubmitted with
        submissions := []
        status := Status.claimed
        updatedAt := 400000 } : Bounty).submissions = [] →
      ({ exSubmitted with
        submissions := []
        status := Status.claimed
        updatedAt := 400000 } : Bounty).status = Status.claimed) ∧
    (({ exSubmitted with
        submissions := []
        status := Status.claimed
        updatedAt := 400000 } : Bounty).submissions ≠ [] →
      ({ exSubmitted with
        submissions := []
        status := Status.claimed
        updatedAt := 400000 } : Bounty).status = Status.submitted) :=
  c9_delete_last_submission "0xAA" "s1" 400000 (by decide) (by decide)

end BountyBoard
